import Mathlib

set_option maxRecDepth 100000
set_option maxHeartbeats 1600000

/-!
Verification of the question-paper generation core: a shallow embedding of
the distribution planner (`app/enhanced_worker.py`), the text chunker
(`app/ingest/chunker.py`), the vector store (`app/deps.py`), the retriever
(`app/rag/retriever.py`) and the template engine / response parser
(`app/templates/sample_paper_template.py`), together with proofs and
refutations of the specified properties.

Strings are modelled as `List Char`.  Python integer arithmetic is modelled
exactly with `Nat`/`Int`.  The distribution planner computes its quotients
through IEEE doubles (`int((p / 100) * t)`); those are modelled bit-faithfully
by `intOfDivMul` below: every float operation is rounded to a 53-bit
significand with round-to-nearest ties-to-even, exactly as the hardware does
(exponents are unbounded, so overflow to infinity — which would need inputs
beyond 1.8e308 — is outside the model).  The chunker's `0.7 * len` window
threshold is modelled as an exact comparison.
-/

/-- Shorthand: the characters of a string literal. -/
def strC (s : String) : List Char := s.data

/-- The `{` character (written via its code point to keep string literals clean). -/
def lbrace : Char := Char.ofNat 123

/-- The `}` character. -/
def rbrace : Char := Char.ofNat 125

/-- Python `str.strip` / `\s` whitespace (ASCII part: space, tab, LF, CR, VT, FF). -/
def isPySpace (c : Char) : Bool :=
  c == ' ' || c == '\t' || c == '\n' || c == '\r' || c == Char.ofNat 11 || c == Char.ofNat 12

/-- Python `s.strip()`: drop whitespace from both ends. -/
def pyStrip (l : List Char) : List Char :=
  ((l.dropWhile isPySpace).reverse.dropWhile isPySpace).reverse

/-- Length of the longest prefix whose characters satisfy `f`. -/
def countWhile (f : Char → Bool) : List Char → Nat
  | [] => 0
  | c :: rest => if f c then countWhile f rest + 1 else 0

/-! ## Distribution planner (`ProfessionalQuestionGenerator.calculate_question_distribution`) -/

/-- Round-to-nearest-even integer division: the integer nearest to `n / d`,
ties going to the even candidate — the final rounding step of every IEEE
binary operation. -/
def rneDiv (n d : Nat) : Nat :=
  let q := n / d
  let r := n % d
  if 2 * r < d then q
  else if d < 2 * r then q + 1
  else if q % 2 = 0 then q else q + 1

/-- Halve the value `(n / d) * 2 ^ e` (by doubling `d`) until `n / d < 2 ^ 53`
(fuelled loop; the fuel passed by `roundRat` strictly exceeds the number of
iterations possible). -/
def fnormUp : Nat → Nat → Nat → Int → Nat × Nat × Int
  | 0, n, d, e => (n, d, e)
  | fuel + 1, n, d, e =>
    if 2 ^ 53 * d ≤ n then fnormUp fuel n (2 * d) (e + 1) else (n, d, e)

/-- Double the value `(n / d) * 2 ^ e` (by doubling `n`) until
`2 ^ 52 ≤ n / d` (fuelled loop). -/
def fnormDown : Nat → Nat → Nat → Int → Nat × Nat × Int
  | 0, n, d, e => (n, d, e)
  | fuel + 1, n, d, e =>
    if n < 2 ^ 52 * d then fnormDown fuel (2 * n) d (e - 1) else (n, d, e)

/-- Round the positive rational `(n / d) * 2 ^ e` to the nearest IEEE double
(53-bit significand, round-to-nearest ties-to-even): the result `(m, e2)`
denotes the value `m * 2 ^ e2` with `2 ^ 52 ≤ m < 2 ^ 53`. -/
def roundRat (n d : Nat) (e : Int) : Nat × Int :=
  let s1 := fnormUp n n d e
  let s2 := fnormDown (53 + s1.2.1) s1.1 s1.2.1 s1.2.2
  let m := rneDiv s2.1 s2.2.1
  if m = 2 ^ 53 then (2 ^ 52, s2.2.2 + 1) else (m, s2.2.2)

/-- Python `a / b` on two nonnegative integers: the true quotient, correctly
rounded to double precision (CPython's `int.__truediv__` is correctly
rounded).  `b = 0` raises `ZeroDivisionError` in Python and is never reached
by the callers below, which guard the zero-total case separately. -/
def floatOfRat (a b : Nat) : Nat × Int :=
  if a = 0 ∨ b = 0 then (0, 0) else roundRat a b 0

/-- Python `x * t` of a double `x` and a nonnegative integer `t`: `t` is first
converted to a double (one rounding, exact whenever `t` fits in 53 bits), then
the product of the two doubles is rounded once more. -/
def floatMulNat (f : Nat × Int) (t : Nat) : Nat × Int :=
  if f.1 = 0 ∨ t = 0 then (0, 0)
  else
    let ft := roundRat t 1 0
    roundRat (f.1 * ft.1) 1 (f.2 + ft.2)

/-- Python `int()` truncation of a nonnegative double. -/
def floatTrunc (f : Nat × Int) : Nat :=
  match f.2 with
  | Int.ofNat k => f.1 * 2 ^ k
  | Int.negSucc k => f.1 / 2 ^ (k + 1)

/-- `int((a / b) * c)` computed through IEEE doubles, the arithmetic the
source uses both for normalisation (`int((p / total) * 100)`) and for the
per-chapter counts (`int((p / 100) * t)`).  Unlike exact floor division
`a * c / b`, the float roundings can land just below an exact integer result,
which the truncation then loses: `intOfDivMul 29 100 100 = 28`, not `29`,
because the double `29 / 100` falls below the real value `0.29`. -/
def intOfDivMul (a b c : Nat) : Nat :=
  floatTrunc (floatMulNat (floatOfRat a b) c)

/-- `ChapterWeightage` (`app/schemas.py`). -/
structure ChapterWeightage where
  chapter_name : List Char
  document_id : List Char
  weightage_percentage : Nat
  focus_topics : List (List Char)
  difficulty_level : List Char
deriving DecidableEq

/-- One value of the distribution dict built by
`calculate_question_distribution` (`app/enhanced_worker.py` lines 74-80). -/
structure DistInfo where
  questions : Int
  chapter_name : List Char
  weightage : Nat
  focus_topics : List (List Char)
  difficulty : List Char
deriving DecidableEq

/-- The normalisation step (`enhanced_worker.py` lines 58-62): if the declared
percentages do not sum to 100, each is replaced by
`int((p / total) * 100)` computed through IEEE doubles.  When the total is
`0` the source raises `ZeroDivisionError`, modelled as `none`. -/
def normalizeWeightages (chs : List ChapterWeightage) : Option (List ChapterWeightage) :=
  let total := (chs.map (fun ch => ch.weightage_percentage)).sum
  if total = 100 then some chs
  else if total = 0 then none
  else some (chs.map (fun ch =>
    { ch with weightage_percentage := intOfDivMul ch.weightage_percentage total 100 }))

/-- The per-chapter question counts (`enhanced_worker.py` lines 65-72): every
chapter except the last gets `int((p / 100) * total)` computed through IEEE
doubles, decrementing a running remainder; the last chapter gets the
remainder (which may differ from its own share). -/
def questionCountsGo : List ChapterWeightage → Int → Nat → List Int
  | [], _, _ => []
  | [_ch], remaining, _t => [remaining]
  | ch :: rest, remaining, t =>
    let c : Int := (intOfDivMul ch.weightage_percentage 100 t : Nat)
    c :: questionCountsGo rest (remaining - c) t

/-- Counts for the whole (already normalised) list, starting from
`remaining_questions = config.total_questions`. -/
def questionCounts (chs : List ChapterWeightage) (total_questions : Nat) : List Int :=
  questionCountsGo chs (total_questions : Int) total_questions

/-- The quota actually stored per chapter: `max(1, questions_count)`
(`enhanced_worker.py` line 75). -/
def questionQuotas (chs : List ChapterWeightage) (total_questions : Nat) : List Int :=
  (questionCounts chs total_questions).map (fun c => max 1 c)

/-- Python dict assignment `d[k] = v`: replace in place if the key exists,
otherwise append. -/
def dictInsert {V : Type} (d : List (List Char × V)) (k : List Char) (v : V) :
    List (List Char × V) :=
  if d.any (fun p => p.1 = k) then d.map (fun p => if p.1 = k then (k, v) else p)
  else d ++ [(k, v)]

/-- `calculate_question_distribution` (`enhanced_worker.py` lines 55-82): the
distribution dict keyed by `document_id`, built in declaration order.
`none` models the `ZeroDivisionError` raised when the declared percentages sum
to zero. -/
def calculate_question_distribution (chs : List ChapterWeightage) (total_questions : Nat) :
    Option (List (List Char × DistInfo)) :=
  (normalizeWeightages chs).map (fun chs2 =>
    (chs2.zip (questionCounts chs2 total_questions)).foldl
      (fun d p => dictInsert d p.1.document_id
        { questions := max 1 p.2
          chapter_name := p.1.chapter_name
          weightage := p.1.weightage_percentage
          focus_topics := p.1.focus_topics
          difficulty := p.1.difficulty_level })
      [])

/-- The association list that the distribution dict amounts to when all
document ids are distinct: one `(document_id, info)` entry per chapter, in
declaration order. -/
def distributionList (chs2 : List ChapterWeightage) (t : Nat) : List (List Char × DistInfo) :=
  (chs2.zip (questionCounts chs2 t)).map (fun p =>
    (p.1.document_id,
      { questions := max 1 p.2
        chapter_name := p.1.chapter_name
        weightage := p.1.weightage_percentage
        focus_topics := p.1.focus_topics
        difficulty := p.1.difficulty_level }))

/-- A chapter weightage with the given name, document id and percentage. -/
def cwMk (name doc : String) (p : Nat) : ChapterWeightage :=
  { chapter_name := strC name
    document_id := strC doc
    weightage_percentage := p
    focus_topics := []
    difficulty_level := strC "medium" }

/-- The 40/35/25 scenario input. -/
def chsScenario : List ChapterWeightage :=
  [cwMk "Ch1" "doc1" 40, cwMk "Ch2" "doc2" 35, cwMk "Ch3" "doc3" 25]

/-- A single source whose declared percentage is zero. -/
def chsZero : List ChapterWeightage := [cwMk "Ch1" "doc1" 0]

/-- Two sources declared 29% and 71% (already summing to 100, so no
normalisation): over 100 questions the float arithmetic gives the first
source 28, one below its exact floor share 29. -/
def chsUlp : List ChapterWeightage := [cwMk "Ch1" "doc1" 29, cwMk "Ch2" "doc2" 71]

/-! ## Text chunker (`TextChunker`, `app/ingest/chunker.py`) -/

/-- `\w` of the cleaning regex (ASCII reading: alphanumeric or underscore). -/
def isWordChar (c : Char) : Bool := c.isAlphanum || c == '_'

/-- The allow-list of `re.sub(r'[^\w\s\.\,\?\!\;\:\-\(\)\[\]\{\}]', '', txt)`. -/
def isAllowedChar (c : Char) : Bool :=
  isWordChar c || isPySpace c || c == '.' || c == ',' || c == '?' || c == '!' ||
  c == ';' || c == ':' || c == '-' || c == '(' || c == ')' || c == '[' || c == ']' ||
  c == lbrace || c == rbrace

/-- `re.sub(r'\s+', ' ', txt)`, scanning with a flag that records whether the
previous character was whitespace: each maximal whitespace run is replaced by
a single space emitted at its first character. -/
def collapseWsGo : Bool → List Char → List Char
  | _, [] => []
  | prevWs, c :: rest =>
    if isPySpace c then
      if prevWs then collapseWsGo true rest else ' ' :: collapseWsGo true rest
    else c :: collapseWsGo false rest

/-- `re.sub(r'\s+', ' ', txt)`: collapse every maximal whitespace run to one space. -/
def collapseWs (l : List Char) : List Char := collapseWsGo false l

/-- `TextChunker.clean` (`chunker.py` lines 11-15): drop NUL bytes, collapse
whitespace, drop characters outside the allow-list, strip. -/
def cleanText (l : List Char) : List Char :=
  pyStrip ((collapseWs (l.filter (fun c => c != Char.ofNat 0))).filter isAllowedChar)

/-- `max(chunk.rfind('.'), chunk.rfind('!'), chunk.rfind('?'))` as an optional
index: the largest index holding a sentence terminator, if any. -/
def lastSentenceEnd (l : List Char) : Option Nat :=
  ((l.enum.filter (fun p => p.2 == '.' || p.2 == '!' || p.2 == '?')).map
    (fun p => p.1)).max?

/-- One window of `TextChunker.chunks` (`chunker.py` lines 24-36): the chunk
text and the (possibly trimmed) end position.  `last > len(chunk) * 0.7` is
taken exactly as `7 * len < 10 * last`. -/
def chunkWindow (size : Nat) (text : List Char) (start : Nat) : List Char × Nat :=
  let chunk := (text.drop start).take size
  let e := start + size
  if e < text.length then
    match lastSentenceEnd chunk with
    | some last =>
      if 7 * chunk.length < 10 * last then (chunk.take (last + 1), start + last + 1)
      else (chunk, e)
    | none => (chunk, e)
  else (chunk, e)

/-- The cursor update of one loop iteration (`chunker.py` lines 42-46):
`start = end - overlap`, and `if start <= 0: start = end`.  In the source
`end - overlap` may be negative; here the truncated `Nat` subtraction yields
`0` in exactly those cases and the `= 0` test fires for the same inputs as
Python's `<= 0` test. -/
def chunkStep (size olap : Nat) (text : List Char) (start : Nat) : Nat :=
  let e2 := (chunkWindow size text start).2
  let s2 := e2 - olap
  if s2 = 0 then e2 else s2

/-- The chunk loop with explicit fuel.  The source loop has no fuel; fuel
`length + 1` (used by `chunks` below) is enough for every terminating run,
because a terminating run advances the cursor strictly on every iteration.
Runs on which the source loops forever are truncated (see the C3 analysis). -/
def chunksGo (size olap : Nat) (text : List Char) : Nat → Nat → Nat → List (List Char × Nat)
  | 0, _, _ => []
  | fuel + 1, start, idx =>
    if start < text.length then
      let w := chunkWindow size text start
      let stripped := pyStrip w.1
      if stripped = [] then chunksGo size olap text fuel (chunkStep size olap text start) idx
      else (stripped, idx) :: chunksGo size olap text fuel (chunkStep size olap text start) (idx + 1)
    else []

/-- `TextChunker.chunks` (`chunker.py` lines 17-46) as a list of
`(chunk_text, chunk_idx)` pairs. -/
def chunks (size olap : Nat) (full_text : List Char) : List (List Char × Nat) :=
  let text := cleanText full_text
  chunksGo size olap text (text.length + 1) 0 0

/-! ## Vector store (`app/deps.py`) and retriever (`app/rag/retriever.py`)

The FAISS `IndexFlatL2` index itself is an external library.
Modelled from the spec: an append-only list of vectors, where `query`
returns up to `k` nearest neighbours by squared Euclidean distance in
ascending order (spec section 4.3); ties are returned in id order (the
sort below is stable).  Metadata rows are `(id, record)` pairs, a record
being an association list of string fields (the sqlite `meta` table stores
`json.dumps` of the dict; the json encoding is kept abstract). -/

/-- A metadata record: the chunk dict stored in the sqlite `meta` table. -/
abbrev MetaRec := List (List Char × List Char)

/-- The persistent state: FAISS index (vector list) plus the sqlite `meta` table. -/
structure VecStore where
  vecs : List (List Int)
  meta : List (Nat × MetaRec)
deriving DecidableEq

/-- Squared Euclidean distance (FAISS `IndexFlatL2` metric). -/
def sqDist (a b : List Int) : Int :=
  ((a.zip b).map (fun p => (p.1 - p.2) * (p.1 - p.2))).sum

/-- `add_embeddings` (`deps.py` lines 41-62): `start_id = ix.ntotal`, the
vectors are appended to the index and one metadata row per vector is inserted
with id `start_id + i`. -/
def add_embeddings (s : VecStore) (vecs : List (List Int)) (metas : List MetaRec) : VecStore :=
  let start_id := s.vecs.length
  { vecs := s.vecs ++ vecs
    meta := s.meta ++ metas.enum.map (fun p => (start_id + p.1, p.2)) }

/-- Modelled from the spec: `ix.search(qvec, k)` of the FAISS flat L2 index —
all stored vectors ranked by ascending squared distance to the query (stable,
so ties come out in id order), truncated to `k`. -/
def faissSearch (vecs : List (List Int)) (q : List Int) (k : Nat) : List (Nat × Int) :=
  (List.insertionSort (fun a b : Nat × Int => a.2 ≤ b.2)
    (vecs.enum.map (fun p => (p.1, sqDist q p.2)))).take k

/-- First metadata row with the given id (`SELECT id, data FROM meta WHERE id IN ...`). -/
def lookupMeta : List (Nat × MetaRec) → Nat → Option MetaRec
  | [], _ => none
  | p :: rest, i => if p.1 = i then some p.2 else lookupMeta rest i

/-- A search result: the chunk dict with its attached `similarity_score`. -/
structure SearchHit where
  data : MetaRec
  similarity_score : Int
deriving DecidableEq

/-- `chunk.get(k)`: first field with the given key. -/
def metaGet : MetaRec → List Char → Option (List Char)
  | [], _ => none
  | p :: rest, k => if p.1 = k then some p.2 else metaGet rest k

/-- The candidate `(id, score)` list of `search` (`retriever.py` lines 41-48):
the FAISS query for `min(k * 3, ntotal)` neighbours, with `-1` ids filtered
out (with the `min` taken, the model never produces a `-1`, but the filter is
kept to mirror the source). -/
def searchCandidates (s : VecStore) (qvec : List Int) (k : Nat) : List (Nat × Int) :=
  (faissSearch s.vecs qvec (min (k * 3) s.vecs.length)).filter
    (fun p => (p.1 : Int) ≠ -1)

/-- The `chunks` list of `search` (`retriever.py` lines 53-79): materialise
each candidate id through the metadata table — ids absent from the table are
silently dropped — then apply the optional equality filter. -/
def searchChunks (s : VecStore) (qvec : List Int) (k : Nat)
    (meta_filter : Option MetaRec) : List SearchHit :=
  let chunks0 := (searchCandidates s qvec k).filterMap
    (fun p => (lookupMeta s.meta p.1).map (fun m => SearchHit.mk m p.2))
  match meta_filter with
  | none => chunks0
  | some f => chunks0.filter
    (fun c => f.all (fun kv => metaGet c.data kv.1 == some kv.2))

/-- The body of `search` (`retriever.py` lines 32-84).  The embedding call
`embed_batch([query])` is an injectable oracle `E` returning `Except`, so
that provider failures can be exercised; every other step is pure.  The
result is `Except`: `.error` marks a raised exception inside the `try`
block.  The final sort ascending by `similarity_score` is stable, like
Python `list.sort`. -/
def searchCore (E : List Char → Except (List Char) (List Int)) (s : VecStore)
    (query : List Char) (k : Nat) (meta_filter : Option MetaRec) :
    Except (List Char) (List SearchHit) :=
  match E query with
  | .error e => .error e
  | .ok qvec =>
    if s.vecs.length = 0 then .ok []
    else if searchCandidates s qvec k = [] then .ok []
    else .ok ((List.insertionSort
      (fun a b : SearchHit => a.similarity_score ≤ b.similarity_score)
      (searchChunks s qvec k meta_filter)).take k)

/-- `search` (`retriever.py` lines 22-88): the whole body runs inside
`try: ... except: return []`, so any raised error becomes an empty result. -/
def search (E : List Char → Except (List Char) (List Int)) (s : VecStore)
    (query : List Char) (k : Nat) (meta_filter : Option MetaRec) : List SearchHit :=
  match searchCore E s query k meta_filter with
  | .ok r => r
  | .error _ => []

/-- The store alignment invariant: the metadata table holds exactly the keys
`0 .. ntotal-1`, in slot order. -/
def alignedStore (s : VecStore) : Prop :=
  s.meta.map Prod.fst = List.range s.vecs.length

/-- A store whose index holds one vector but whose metadata table is empty:
id 0 is skewed. -/
def skewStore : VecStore := { vecs := [[1, 2]], meta := [] }

/-- An embedding oracle that always succeeds with the given vector. -/
def constE (v : List Int) : List Char → Except (List Char) (List Int) := fun _ => Except.ok v

/-- An embedding oracle that always raises. -/
def failE : List Char → Except (List Char) (List Int) := fun _ => Except.error (strC "boom")

/-- Five pairwise-distinct two-dimensional vectors. -/
def fiveVecs : List (List Int) := [[0, 0], [3, 0], [6, 0], [9, 0], [12, 0]]

/-- Five metadata records for them. -/
def fiveMetas : List MetaRec :=
  [[(strC "i", strC "0")], [(strC "i", strC "1")], [(strC "i", strC "2")],
   [(strC "i", strC "3")], [(strC "i", strC "4")]]

/-- `SamplePaperTemplate.TEMPLATE_80_MARKS` (`sample_paper_template.py` lines 10-49). -/
def TEMPLATE_80_MARKS : List Char :=
  strC "May 2024 - May 2024 - May 2024 - May 2024 - May 2024 - May 2024 - May 2024 - May 2024 - \x7bpaper_code\x7d\n\nTime : 3 Hours Marks : 80\n\nInstructions :1. All Questions are Compulsory.2. Each Sub-question carry 5 marks.\n3. Each Sub-question should be answered between 75 to 100 words. Write every questions\nanswer on separate page.\n4. Question paper of 80 Marks, it will be converted in to your programme structure marks.\n\n1. Solve any four sub-questions.\na) \x7bQ1_A\x7d 5\nb) \x7bQ1_B\x7d 5\nc) \x7bQ1_C\x7d 5\nd) \x7bQ1_D\x7d 5\ne) \x7bQ1_E\x7d 5\n\n2. Solve any four sub-questions.\na) \x7bQ2_A\x7d 5\nb) \x7bQ2_B\x7d 5\nc) \x7bQ2_C\x7d 5\nd) \x7bQ2_D\x7d 5\ne) \x7bQ2_E\x7d 5\n\n(P.T.O.)\n\n3. Solve any four sub-questions.\na) \x7bQ3_A\x7d 5\nb) \x7bQ3_B\x7d 5\nc) \x7bQ3_C\x7d 5\nd) \x7bQ3_D\x7d 5\ne) \x7bQ3_E\x7d 5\n\n4. Solve any four sub-questions.\na) \x7bQ4_A\x7d 5\nb) \x7bQ4_B\x7d 5\nc) \x7bQ4_C\x7d 5\nd) \x7bQ4_D\x7d 5\ne) \x7bQ4_E\x7d 5\n\nsssssss"

/-- A literal segment of the template, between placeholders. -/
def tseg0 : List Char := strC "May 2024 - May 2024 - May 2024 - May 2024 - May 2024 - May 2024 - May 2024 - May 2024 - "

/-- A literal segment of the template, between placeholders. -/
def tseg1 : List Char := strC "\n\nTime : 3 Hours Marks : 80\n\nInstructions :1. All Questions are Compulsory.2. Each Sub-question carry 5 marks.\n3. Each Sub-question should be answered between 75 to 100 words. Write every questions\nanswer on separate page.\n4. Question paper of 80 Marks, it will be converted in to your programme structure marks.\n\n1. Solve any four sub-questions.\na) "

/-- A literal segment of the template, between placeholders. -/
def tseg2 : List Char := strC " 5\nb) "

/-- A literal segment of the template, between placeholders. -/
def tseg3 : List Char := strC " 5\nc) "

/-- A literal segment of the template, between placeholders. -/
def tseg4 : List Char := strC " 5\nd) "

/-- A literal segment of the template, between placeholders. -/
def tseg5 : List Char := strC " 5\ne) "

/-- A literal segment of the template, between placeholders. -/
def tseg6 : List Char := strC " 5\n\n2. Solve any four sub-questions.\na) "

/-- A literal segment of the template, between placeholders. -/
def tseg7 : List Char := strC " 5\n\n(P.T.O.)\n\n3. Solve any four sub-questions.\na) "

/-- A literal segment of the template, between placeholders. -/
def tseg8 : List Char := strC " 5\n\n4. Solve any four sub-questions.\na) "

/-- A literal segment of the template, between placeholders. -/
def tsegEnd : List Char := strC " 5\n\nsssssss"

/-- The 21 template segments that precede the 21 placeholders, in order. -/
def tmplSegs : List (List Char) :=
  [tseg0, tseg1, tseg2, tseg3, tseg4, tseg5, tseg6, tseg2, tseg3, tseg4, tseg5, tseg7, tseg2, tseg3, tseg4, tseg5, tseg8, tseg2, tseg3, tseg4, tseg5]

/-- The literal placeholder `{key}` as it occurs in the template. -/
def braceKey (k : List Char) : List Char := lbrace :: (k ++ [rbrace])

/-- Suffixes of the template, cut before each placeholder (innermost first). -/
def tRest21 : List Char := tsegEnd
def tRest20 : List Char := tseg5 ++ (braceKey (strC "Q4_E") ++ tRest21)
def tRest19 : List Char := tseg4 ++ (braceKey (strC "Q4_D") ++ tRest20)
def tRest18 : List Char := tseg3 ++ (braceKey (strC "Q4_C") ++ tRest19)
def tRest17 : List Char := tseg2 ++ (braceKey (strC "Q4_B") ++ tRest18)
def tRest16 : List Char := tseg8 ++ (braceKey (strC "Q4_A") ++ tRest17)
def tRest15 : List Char := tseg5 ++ (braceKey (strC "Q3_E") ++ tRest16)
def tRest14 : List Char := tseg4 ++ (braceKey (strC "Q3_D") ++ tRest15)
def tRest13 : List Char := tseg3 ++ (braceKey (strC "Q3_C") ++ tRest14)
def tRest12 : List Char := tseg2 ++ (braceKey (strC "Q3_B") ++ tRest13)
def tRest11 : List Char := tseg7 ++ (braceKey (strC "Q3_A") ++ tRest12)
def tRest10 : List Char := tseg5 ++ (braceKey (strC "Q2_E") ++ tRest11)
def tRest9 : List Char := tseg4 ++ (braceKey (strC "Q2_D") ++ tRest10)
def tRest8 : List Char := tseg3 ++ (braceKey (strC "Q2_C") ++ tRest9)
def tRest7 : List Char := tseg2 ++ (braceKey (strC "Q2_B") ++ tRest8)
def tRest6 : List Char := tseg6 ++ (braceKey (strC "Q2_A") ++ tRest7)
def tRest5 : List Char := tseg5 ++ (braceKey (strC "Q1_E") ++ tRest6)
def tRest4 : List Char := tseg4 ++ (braceKey (strC "Q1_D") ++ tRest5)
def tRest3 : List Char := tseg3 ++ (braceKey (strC "Q1_C") ++ tRest4)
def tRest2 : List Char := tseg2 ++ (braceKey (strC "Q1_B") ++ tRest3)
def tRest1 : List Char := tseg1 ++ (braceKey (strC "Q1_A") ++ tRest2)
def tRest0 : List Char := tseg0 ++ (braceKey (strC "paper_code") ++ tRest1)

/-! ## Template engine (`app/templates/sample_paper_template.py`)

Documents are `List Char`.  Python's `str.replace(old, new)` is
`replaceAll`; the regex checks of `validate_question_paper_format` are
compiled to a small matcher (`matchRun`) over literal/star/plus/class
elements.  The matcher is greedy without backtracking, which coincides with
Python `re` on every pattern used here because each starred/plussed class
excludes the first character of the literal that follows it. -/

/-- One scanning step of `str.replace`: `skip` counts characters of an
already-replaced occurrence still to be passed over (occurrences are
non-overlapping, left to right). -/
def replaceScan (pat rep : List Char) : List Char → Nat → List Char
  | [], _ => []
  | c :: rest, skip =>
    if 0 < skip then replaceScan pat rep rest (skip - 1)
    else if pat.isPrefixOf (c :: rest) then rep ++ replaceScan pat rep rest (pat.length - 1)
    else c :: replaceScan pat rep rest 0

/-- Python `doc.replace(pat, rep)` for a non-empty pattern (every pattern
used by the source is a non-empty `{key}` literal). -/
def replaceAll (pat rep l : List Char) : List Char :=
  match pat with
  | [] => l
  | _ :: _ => replaceScan pat rep l 0

/-- `chr(ord('A') + sub_q)`. -/
def subLetter (sub : Nat) : Char := Char.ofNat ('A'.toNat + sub)

/-- The replacement value for slot `idx` (`sample_paper_template.py` lines
90-93): the stripped question if one exists, else the generated
`"Question {idx+1} placeholder"`. -/
def questionValue (qs : List (List Char)) (idx : Nat) : List Char :=
  match qs.get? idx with
  | some q => pyStrip q
  | none => strC "Question " ++ strC (toString (idx + 1)) ++ strC " placeholder"

/-- The replacement dict of `create_question_paper` in insertion order:
`paper_code` first, then `Q1_A .. Q4_E` (lines 79-93). -/
def replacementPairs (paper_code : List Char) (qs : List (List Char)) :
    List (List Char × List Char) :=
  (strC "paper_code", paper_code) ::
    ((List.range 4).map (fun qset =>
      (List.range 5).map (fun sub =>
        (strC ("Q" ++ toString (qset + 1) ++ "_") ++ [subLetter sub],
         questionValue qs (qset * 5 + sub))))).flatten

/-- The placeholder-substitution loop (lines 96-98): fold `str.replace` of
`"{key}"` by the value over the replacement pairs. -/
def fillTemplate (paper_code : List Char) (qs : List (List Char)) : List Char :=
  (replacementPairs paper_code qs).foldl
    (fun doc kv => replaceAll (lbrace :: (kv.1 ++ [rbrace])) kv.2 doc)
    TEMPLATE_80_MARKS

/-- `SamplePaperTemplate.create_question_paper` (lines 61-100), with the
randomly generated `paper_code` passed as a parameter.  When fewer than 20
questions are supplied the source enters its padding branch (line 74), whose
f-string references an undefined name `i` and raises `NameError`; that raise
is modelled as `none`. -/
def create_question_paper (paper_code : List Char) (qs : List (List Char)) :
    Option (List Char) :=
  if qs.length < 20 then none
  else some (fillTemplate paper_code qs)

/-- An element of a compiled regular expression: a literal, a greedy `X*`,
a greedy `X+`, or a single-character class. -/
inductive RElem where
  | lit (s : List Char)
  | star (f : Char → Bool)
  | plus1 (f : Char → Bool)
  | one (f : Char → Bool)

/-- A compiled pattern. -/
abbrev Pat := List RElem

/-- Match outcome at a fixed position: a hit consuming `n` characters, a
mismatch on an interior character (stable under extending the input), or a
failure caused by running out of input (not stable). -/
inductive MRes where
  | hit (n : Nat)
  | failIn
  | failEnd
deriving DecidableEq

/-- Run a pattern at the start of `l` (greedy, no backtracking; see the
section comment for why this coincides with `re` on the patterns used). -/
def matchRun : Pat → List Char → MRes
  | [], _ => .hit 0
  | .lit s :: ps, l =>
    if s.isPrefixOf l then
      match matchRun ps (l.drop s.length) with
      | .hit n => .hit (s.length + n)
      | r => r
    else if l.isPrefixOf s then .failEnd
    else .failIn
  | .star f :: ps, l =>
    let k := countWhile f l
    if k = l.length then .failEnd
    else
      match matchRun ps (l.drop k) with
      | .hit n => .hit (k + n)
      | r => r
  | .plus1 f :: ps, l =>
    let k := countWhile f l
    if k = 0 then (if l.isEmpty then .failEnd else .failIn)
    else if k = l.length then .failEnd
    else
      match matchRun ps (l.drop k) with
      | .hit n => .hit (k + n)
      | r => r
  | .one f :: ps, l =>
    match l with
    | [] => .failEnd
    | c :: rest =>
      if f c then
        match matchRun ps rest with
        | .hit n => .hit (n + 1)
        | r => r
      else .failIn

def isHit : MRes → Bool
  | .hit _ => true
  | _ => false

/-- `re.search(pat, l)` as a boolean: the pattern hits at some position. -/
def occursB (pat : Pat) : List Char → Bool
  | [] => isHit (matchRun pat [])
  | c :: rest => isHit (matchRun pat (c :: rest)) || occursB pat rest

/-- `len(re.findall(pat, l, re.MULTILINE))` for a `^`-anchored pattern:
scan character by character; `atStart` tells whether the current position is
a line start (position 0 or after a newline), `skip` counts characters of a
previous (non-overlapping) match still being passed over, during which no
new match may begin. -/
def cmScan (pat : Pat) : List Char → Bool → Nat → Nat
  | [], _, _ => 0
  | c :: rest, atStart, skip =>
    if 0 < skip then cmScan pat rest (c == '\n') (skip - 1)
    else if atStart then
      match matchRun pat (c :: rest) with
      | .hit n => 1 + cmScan pat rest (c == '\n') (max n 1 - 1)
      | _ => cmScan pat rest (c == '\n') 0
    else cmScan pat rest (c == '\n') 0

/-- `cmScan` restricted to a segment: returns the number of matches begun
and finished inside it together with the line-start flag and leftover skip
at its end, or `none` if some attempt ran out of input (in which case the
count cannot be decided without the following text). -/
def cmSegScan (pat : Pat) : List Char → Bool → Nat → Option (Nat × Bool × Nat)
  | [], b, skip => some (0, b, skip)
  | c :: rest, atStart, skip =>
    if 0 < skip then cmSegScan pat rest (c == '\n') (skip - 1)
    else if atStart then
      match matchRun pat (c :: rest) with
      | .hit n => (cmSegScan pat rest (c == '\n') (max n 1 - 1)).map
          (fun r => (r.1 + 1, r.2))
      | .failIn => cmSegScan pat rest (c == '\n') 0
      | .failEnd => none
    else cmSegScan pat rest (c == '\n') 0

/-- Total match count over a list of segments, each entered at a non-line
start with no leftover skip (the situation between the glued pieces of a
filled template, whose values are newline-free). -/
def segCounts (pat : Pat) : List (List Char) → Bool → Option (Nat × Bool)
  | [], b => some (0, b)
  | S :: rest, b =>
    match cmSegScan pat S b 0 with
    | some (k, false, 0) => (segCounts pat rest false).map (fun p => (k + p.1, p.2))
    | _ => none

/-- Interleave `(segment, value)` pieces and append a final segment. -/
def glue : List (List Char × List Char) → List Char → List Char
  | [], final => final
  | (S, v) :: rest, final => S ++ (v ++ glue rest final)

/-- Occurrence-freedom of a pattern string in a document (used for the
untouched remainder during placeholder substitution). -/
def noOccurB (pat : List Char) : List Char → Bool
  | [] => !(pat.isPrefixOf [])
  | c :: rest => !(pat.isPrefixOf (c :: rest)) && noOccurB pat rest

/-- `r'\d'` (ASCII). -/
def digitC (c : Char) : Bool := c.isDigit

/-- `r'Marks\s*:\s*80'`. -/
def marksPat : Pat :=
  [.lit (strC "Marks"), .star isPySpace, .lit (strC ":"), .star isPySpace, .lit (strC "80")]

/-- `r'Time\s*:\s*3\s*Hours'`. -/
def timePat : Pat :=
  [.lit (strC "Time"), .star isPySpace, .lit (strC ":"), .star isPySpace,
   .lit (strC "3"), .star isPySpace, .lit (strC "Hours")]

/-- `r'^\d+\.\s*Solve any four'` (the `^` anchoring is handled by `cmScan`). -/
def mainQPat : Pat :=
  [.plus1 digitC, .lit (strC "."), .star isPySpace, .lit (strC "Solve any four")]

/-- `r'^[a-e]\)'`. -/
def subQPat : Pat := [.one (fun c => 'a' ≤ c && c ≤ 'e'), .lit (strC ")")]

/-- `r'Instructions\s*:'`. -/
def instrPat : Pat := [.lit (strC "Instructions"), .star isPySpace, .lit (strC ":")]

/-- `r'\(P\.T\.O\.\)'`. -/
def ptoPat : Pat := [.lit (strC "(P.T.O.)")]

/-- `r'sssssss'`. -/
def endingPat : Pat := [.lit (strC "sssssss")]

/-- `r'\{[^}]+\}'`: an unresolved placeholder. -/
def phPat : Pat := [.lit [lbrace], .plus1 (fun c => c != rbrace), .lit [rbrace]]

/-- The check dict of `validate_question_paper_format` (lines 127-136). -/
structure FormatChecks where
  has_marks_80 : Bool
  has_time_3_hours : Bool
  has_4_main_questions : Bool
  has_20_sub_questions : Bool
  has_instructions : Bool
  has_pto : Bool
  has_proper_ending : Bool
  no_placeholders : Bool
deriving DecidableEq

/-- `all(checks.values())`. -/
def checksAll (c : FormatChecks) : Bool :=
  c.has_marks_80 && c.has_time_3_hours && c.has_4_main_questions &&
  c.has_20_sub_questions && c.has_instructions && c.has_pto &&
  c.has_proper_ending && c.no_placeholders

/-- `validate_question_paper_format` (lines 123-138). -/
def validate_question_paper_format (paper : List Char) : FormatChecks × Bool :=
  let checks : FormatChecks :=
    { has_marks_80 := occursB marksPat paper
      has_time_3_hours := occursB timePat paper
      has_4_main_questions := cmScan mainQPat paper true 0 == 4
      has_20_sub_questions := cmScan subQPat paper true 0 == 20
      has_instructions := occursB instrPat paper
      has_pto := occursB ptoPat paper
      has_proper_ending := occursB endingPat paper
      no_placeholders := !(occursB phPat paper) }
  (checks, checksAll checks)

/-- The shape of a document during sequential placeholder substitution:
`SplitSpec pairs rest out` says that folding the replacements `pairs` over a
brace-free prefix followed by `rest` rewrites `rest` to `out`: each step
peels a brace-free segment, its placeholder, and leaves a remainder free of
that placeholder. -/
inductive SplitSpec : List (List Char × List Char) → List Char → List Char → Prop where
  | nil (rest : List Char) : SplitSpec [] rest rest
  | cons (key v S R out : List Char) (ps : List (List Char × List Char)) :
      lbrace ∉ S → lbrace ∉ v →
      noOccurB (lbrace :: (key ++ [rbrace])) R = true →
      SplitSpec ps R out →
      SplitSpec ((key, v) :: ps) (S ++ ((lbrace :: (key ++ [rbrace])) ++ R)) (S ++ (v ++ out))

/-- The all-checks-pass value. -/
def allChecksTrue : FormatChecks :=
  { has_marks_80 := true, has_time_3_hours := true, has_4_main_questions := true,
    has_20_sub_questions := true, has_instructions := true, has_pto := true,
    has_proper_ending := true, no_placeholders := true }

/-! ## Response parser (`parse_llm_response_to_questions`,
`app/templates/sample_paper_template.py` lines 155-195)

The two extraction regexes are embedded as explicit backtracking matchers.
Quantifier preference follows Python `re`: the `\s*` and `\d+` are greedy
(candidate consumptions tried longest first), the capture group is lazy
(shortest first), lookaheads are zero-width; alternations are tried left to
right.  Inside a zero-width lookahead only success matters, so its inner
quantifiers are tried with `List.any`. -/

/-- Greedy candidate list `n, n-1, ..., 0`. -/
def descRange (n : Nat) : List Nat := (List.range (n + 1)).reverse

/-- Lazy candidate list `1, 2, ..., n`. -/
def ascRange1 (n : Nat) : List Nat := (List.range n).map (fun i => i + 1)

/-- First candidate on which `f` succeeds (backtracking order). -/
def firstSome {A B : Type} (f : A → Option B) : List A → Option B
  | [] => none
  | a :: rest =>
    match f a with
    | some b => some b
    | none => firstSome f rest

/-- The lookahead `(?=\n\s*\d+\.|\n\s*$|$)` of the numbered-line pattern,
with MULTILINE `$` (end of input or before a newline). -/
def lookaheadNumbered (l : List Char) : Bool :=
  (match l with
   | '\n' :: t =>
     ((descRange (countWhile isPySpace t)).any (fun k =>
       let t2 := t.drop k
       (ascRange1 (countWhile digitC t2)).any (fun d => (t2.drop d).head? == some '.')))
     ||
     ((descRange (countWhile isPySpace t)).any (fun k =>
       let t2 := t.drop k
       t2.isEmpty || t2.head? == some '\n'))
   | _ => false)
  || l.isEmpty || l.head? == some '\n'

/-- The core `\s*\d+\.\s*([^0-9\n]+?)(?=...)` of the numbered-line pattern
at a fixed position: returns `(consumed, group)`. -/
def matchNumberedCore (l : List Char) : Option (Nat × List Char) :=
  firstSome (fun k1 =>
    let m1 := l.drop k1
    firstSome (fun d =>
      match m1.drop d with
      | '.' :: m3 =>
        firstSome (fun k2 =>
          let m4 := m3.drop k2
          firstSome (fun g =>
            if lookaheadNumbered (m4.drop g) then some (k1 + d + 1 + k2 + g, m4.take g)
            else none)
            (ascRange1 (countWhile (fun c => !(c.isDigit) && c != '\n') m4)))
          (descRange (countWhile isPySpace m3))
      | _ => none)
      ((ascRange1 (countWhile digitC m1)).reverse))
    (descRange (countWhile isPySpace l))

/-- `(?:^|\n)` then the core: with MULTILINE, `^` is zero-width at position
0 or right after a newline (`bol`); the `\n` alternative consumes one
newline.  `^` is tried first. -/
def matchNumberedAt (bol : Bool) (l : List Char) : Option (Nat × List Char) :=
  match (if bol then matchNumberedCore l else none) with
  | some r => some r
  | none =>
    match l with
    | '\n' :: t => (matchNumberedCore t).map (fun r => (r.1 + 1, r.2))
    | _ => none

/-- `re.findall` scan for the numbered pattern: non-overlapping, left to
right; `skip` passes over the remainder of the previous match. -/
def findNumGo : List Char → Bool → Nat → List (List Char)
  | [], _, _ => []
  | c :: rest, bol, skip =>
    if 0 < skip then findNumGo rest (c == '\n') (skip - 1)
    else
      match matchNumberedAt bol (c :: rest) with
      | some (n, grp) => grp :: findNumGo rest (c == '\n') (max n 1 - 1)
      | none => findNumGo rest (c == '\n') 0

/-- `re.findall(r'(?:^|\n)\s*\d+\.\s*([^0-9\n]+?)(?=\n\s*\d+\.|\n\s*$|$)', l, re.MULTILINE | re.DOTALL)`. -/
def findall_numbered (l : List Char) : List (List Char) := findNumGo l true 0

/-- The lookahead `(?=\s*[a-e]\)|\s*\d+\.|\s*$)` of the sub-question pattern. -/
def lookaheadSub (l : List Char) : Bool :=
  ((descRange (countWhile isPySpace l)).any (fun k =>
    match l.drop k with
    | c :: ')' :: _ => 'a' ≤ c && c ≤ 'e'
    | _ => false))
  ||
  ((descRange (countWhile isPySpace l)).any (fun k =>
    let t2 := l.drop k
    (ascRange1 (countWhile digitC t2)).any (fun d => (t2.drop d).head? == some '.')))
  ||
  ((descRange (countWhile isPySpace l)).any (fun k =>
    let t2 := l.drop k
    t2.isEmpty || t2.head? == some '\n'))

/-- `[a-e]\)\s*([^a-e\n]+?)(?=...)` at a fixed position. -/
def matchSubCore (l : List Char) : Option (Nat × List Char) :=
  match l with
  | c :: ')' :: m3 =>
    if 'a' ≤ c && c ≤ 'e' then
      firstSome (fun k2 =>
        let m4 := m3.drop k2
        firstSome (fun g =>
          if lookaheadSub (m4.drop g) then some (2 + k2 + g, m4.take g) else none)
          (ascRange1 (countWhile (fun ch => !('a' ≤ ch && ch ≤ 'e') && ch != '\n') m4)))
        (descRange (countWhile isPySpace m3))
    else none
  | _ => none

/-- `re.findall` scan for the sub-question pattern (not anchored). -/
def findSubGo : List Char → Nat → List (List Char)
  | [], _ => []
  | c :: rest, skip =>
    if 0 < skip then findSubGo rest (skip - 1)
    else
      match matchSubCore (c :: rest) with
      | some (n, grp) => grp :: findSubGo rest (max n 1 - 1)
      | none => findSubGo rest 0

/-- `re.findall(r'[a-e]\)\s*([^a-e\n]+?)(?=\s*[a-e]\)|\s*\d+\.|\s*$)', l, re.DOTALL)`. -/
def findall_sub (l : List Char) : List (List Char) := findSubGo l 0

/-- A sentence terminator of the fallback split `re.split(r'[.!?]+', l)`. -/
def isTermC (c : Char) : Bool := c == '.' || c == '!' || c == '?'

/-- State machine for `re.split(r'[.!?]+', l)`: `inTerm` is true while
consuming a terminator run; `acc` is the current fragment reversed. -/
def splitTermGo : List Char → List Char → Bool → List (List Char)
  | [], acc, inTerm => if inTerm then [[]] else [acc.reverse]
  | c :: rest, acc, inTerm =>
    if isTermC c then
      if inTerm then splitTermGo rest acc true
      else acc.reverse :: splitTermGo rest [] true
    else
      if inTerm then splitTermGo rest [c] false
      else splitTermGo rest (c :: acc) false

/-- `re.split(r'[.!?]+', l)`.  Note: the split fragments never contain a
`.`, `!` or `?` character. -/
def splitTerm (l : List Char) : List (List Char) := splitTermGo l [] false

/-- The `while len(questions) < 20` padding loop (lines 192-193): each
appended placeholder is numbered with the length at the time of appending,
so the loop amounts to appending
`"Generated question {len+i+1}"` for `i < 20 - len`. -/
def padQuestions (qs : List (List Char)) : List (List Char) :=
  qs ++ (List.range (20 - qs.length)).map
    (fun i => strC "Generated question " ++ strC (toString (qs.length + i + 1)))

/-- `parse_llm_response_to_questions` (lines 155-195). -/
def parse_llm_response_to_questions (llm_response : List Char) : List (List Char) :=
  let numbered := findall_numbered llm_response
  let q1 : List (List Char) :=
    if 15 ≤ numbered.length then (numbered.take 20).map pyStrip else []
  let q2 :=
    if q1.length < 20 then
      let subs := findall_sub llm_response
      if 15 ≤ subs.length then (subs.take 20).map pyStrip else q1
    else q1
  let q3 :=
    if q2.length < 20 then
      q2 ++ ((splitTerm llm_response).filterMap (fun s =>
        if 20 < (pyStrip s).length then
          (if s.contains '?' then some (pyStrip s) else none)
        else none)).take 20
    else q2
  (padQuestions q3).take 20

/-- The C5 scenario input: exactly 15 numbered single-line questions. -/
def c5Input : List Char :=
  strC "1. Define alpha concepts\n2. Explain beta processes\n3. Describe gamma features\n4. Discuss delta methods\n5. Analyze epsilon systems\n6. Evaluate zeta models\n7. Compare eta structures\n8. Outline theta principles\n9. Summarize iota elements\n10. Interpret kappa results\n11. Examine lambda patterns\n12. Review mu properties\n13. Assess nu functions\n14. Classify xi types\n15. Illustrate omicron uses"

/-- The expected parse: the 15 questions in emission order followed by 5
synthesized placeholders. -/
def c5Expected : List (List Char) :=
  [strC "Define alpha concepts",
   strC "Explain beta processes",
   strC "Describe gamma features",
   strC "Discuss delta methods",
   strC "Analyze epsilon systems",
   strC "Evaluate zeta models",
   strC "Compare eta structures",
   strC "Outline theta principles",
   strC "Summarize iota elements",
   strC "Interpret kappa results",
   strC "Examine lambda patterns",
   strC "Review mu properties",
   strC "Assess nu functions",
   strC "Classify xi types",
   strC "Illustrate omicron uses",
   strC "Generated question 16",
   strC "Generated question 17",
   strC "Generated question 18",
   strC "Generated question 19",
   strC "Generated question 20"]

/-! ## Theorems -/

/-- The per-source counts always sum to the requested total: the last chapter
receives exactly the running remainder. -/
theorem questionCountsGo_sum (chs : List ChapterWeightage) (t : Nat) :
    chs ≠ [] → ∀ r : Int, (questionCountsGo chs r t).sum = r := by
  induction chs with
  | nil => intro h; exact absurd rfl h
  | cons ch rest ih =>
    intro _ r
    cases rest with
    | nil => simp [questionCountsGo]
    | cons ch2 rest2 =>
      have h2 : (ch2 :: rest2 : List ChapterWeightage) ≠ [] := by simp
      simp only [questionCountsGo, List.sum_cons, ih h2]
      ring

theorem questionCounts_sum (chs : List ChapterWeightage) (t : Nat) (h : chs ≠ []) :
    (questionCounts chs t).sum = (t : Int) :=
  questionCountsGo_sum chs t h t

theorem questionCountsGo_length (chs : List ChapterWeightage) (t : Nat) :
    ∀ r : Int, (questionCountsGo chs r t).length = chs.length := by
  induction chs with
  | nil => intro r; rfl
  | cons ch rest ih =>
    intro r
    cases rest with
    | nil => rfl
    | cons ch2 rest2 => simpa [questionCountsGo] using ih _

/-- Every chapter except the last is given the float share
`int((p / 100) * total_questions)`, independently of the running remainder. -/
theorem questionCountsGo_get (chs : List ChapterWeightage) (t : Nat) :
    ∀ (r : Int) (i : Nat), i + 1 < chs.length →
      ∃ ch, chs.get? i = some ch ∧
        (questionCountsGo chs r t).get? i =
          some ((intOfDivMul ch.weightage_percentage 100 t : Nat) : Int) := by
  induction chs with
  | nil => intro r i h; simp at h
  | cons ch rest ih =>
    intro r i h
    cases rest with
    | nil => simp at h
    | cons ch2 rest2 =>
      cases i with
      | zero => exact ⟨ch, rfl, rfl⟩
      | succ j =>
        have h2 : j + 1 < (ch2 :: rest2 : List ChapterWeightage).length := by
          simpa using Nat.lt_of_succ_lt_succ h
        obtain ⟨ch3, hc, hq⟩ := ih _ j h2
        exact ⟨ch3, hc, hq⟩

theorem normalizeWeightages_doc_ids (chs chs2 : List ChapterWeightage)
    (h : normalizeWeightages chs = some chs2) :
    chs2.map (fun ch => ch.document_id) = chs.map (fun ch => ch.document_id) := by
  unfold normalizeWeightages at h
  by_cases h100 : (chs.map (fun ch => ch.weightage_percentage)).sum = 100
  · simp only [h100, if_pos rfl] at h
    cases h; rfl
  · simp only [if_neg h100] at h
    by_cases h0 : (chs.map (fun ch => ch.weightage_percentage)).sum = 0
    · simp [h0] at h
    · simp only [if_neg h0, Option.some.injEq] at h
      subst h
      simp

theorem normalizeWeightages_total (chs : List ChapterWeightage)
    (hsum : (chs.map (fun ch => ch.weightage_percentage)).sum ≠ 0) :
    ∃ chs2, normalizeWeightages chs = some chs2 := by
  unfold normalizeWeightages
  by_cases h100 : (chs.map (fun ch => ch.weightage_percentage)).sum = 100
  · exact ⟨chs, by simp [h100]⟩
  · refine ⟨chs.map (fun ch =>
      { ch with weightage_percentage := (intOfDivMul ch.weightage_percentage
          ((chs.map (fun ch2 => ch2.weightage_percentage)).sum) 100) }), ?_⟩
    simp [if_neg h100, if_neg hsum]

/-- Folding Python dict insertion over pairs with pairwise-distinct fresh keys
just appends them in order. -/
theorem foldl_dictInsert_nodup {V : Type} (pairs : List (List Char × V)) :
    ∀ d : List (List Char × V),
      (pairs.map Prod.fst).Nodup → (∀ p ∈ d, ∀ q ∈ pairs, p.1 ≠ q.1) →
      pairs.foldl (fun acc p => dictInsert acc p.1 p.2) d = d ++ pairs := by
  induction pairs with
  | nil => intro d _ _; simp
  | cons q rest ih =>
    intro d hnd hfresh
    have hq : dictInsert d q.1 q.2 = d ++ [q] := by
      have hany : d.any (fun p => p.1 = q.1) = false := by
        simp only [List.any_eq_false, decide_eq_true_eq]
        intro p hp
        exact hfresh p hp q (List.mem_cons_self q rest)
      simp [dictInsert, hany]
    have hnd2 : (rest.map Prod.fst).Nodup := (List.nodup_cons.mp hnd).2
    have hfresh2 : ∀ p ∈ d ++ [q], ∀ r ∈ rest, p.1 ≠ r.1 := by
      intro p hp r hr
      rcases List.mem_append.mp hp with hpd | hpq
      · exact hfresh p hpd r (List.mem_cons_of_mem q hr)
      · have : p = q := by simpa using hpq
        subst this
        intro hEq
        exact (List.nodup_cons.mp hnd).1 (hEq ▸ List.mem_map_of_mem Prod.fst hr)
    calc (q :: rest).foldl (fun acc p => dictInsert acc p.1 p.2) d
        = rest.foldl (fun acc p => dictInsert acc p.1 p.2) (d ++ [q]) := by
          simp [List.foldl_cons, hq]
      _ = (d ++ [q]) ++ rest := ih (d ++ [q]) hnd2 hfresh2
      _ = d ++ (q :: rest) := by simp

/-- C1 main theorem (amended; see `calculate_question_distribution_cex` for
the refutations of the unrestricted original).  For chapters with distinct
document ids and percentages of nonzero total, each chapter but the last gets
the float-computed share `int((p / 100) * t)` — which is not always the exact
floor share: IEEE rounding can lose an ulp, as the counterexample shows — the
counts nevertheless sum to exactly `total_questions` because the last chapter
absorbs the remainder, and the stored quotas `max 1 _` sum to exactly
`total_questions` when no minimum-1 floor fires, and always to at least
`total_questions`. -/
theorem calculate_question_distribution_correct
    (chs : List ChapterWeightage) (t : Nat) (ht : 1 ≤ t)
    (hsum : (chs.map (fun ch => ch.weightage_percentage)).sum ≠ 0)
    (hids : (chs.map (fun ch => ch.document_id)).Nodup) :
    ∃ chs2, normalizeWeightages chs = some chs2 ∧
      calculate_question_distribution chs t = some (distributionList chs2 t) ∧
      (∀ i : Nat, i + 1 < chs2.length →
        ∃ ch, chs2.get? i = some ch ∧
          (questionCounts chs2 t).get? i =
            some ((intOfDivMul ch.weightage_percentage 100 t : Nat) : Int)) ∧
      (questionCounts chs2 t).sum = (t : Int) ∧
      ((∀ c ∈ questionCounts chs2 t, 1 ≤ c) → (questionQuotas chs2 t).sum = (t : Int)) ∧
      (t : Int) ≤ (questionQuotas chs2 t).sum := by
  obtain ⟨chs2, hn⟩ := normalizeWeightages_total chs hsum
  have hne : chs ≠ [] := by
    intro h; subst h; simp at hsum
  have hids2 : chs2.map (fun ch => ch.document_id) = chs.map (fun ch => ch.document_id) :=
    normalizeWeightages_doc_ids chs chs2 hn
  have hne2 : chs2 ≠ [] := by
    intro h
    subst h
    have := congrArg List.length hids2
    simp at this
    exact hne (List.eq_nil_of_length_eq_zero this.symm)
  have hlen : (questionCounts chs2 t).length = chs2.length :=
    questionCountsGo_length chs2 t _
  refine ⟨chs2, hn, ?_, ?_, questionCounts_sum chs2 t hne2, ?_, ?_⟩
  · -- the dict is the ordered association list
    have hmapfold :
        (chs2.zip (questionCounts chs2 t)).foldl
          (fun d p => dictInsert d p.1.document_id
            { questions := max 1 p.2
              chapter_name := p.1.chapter_name
              weightage := p.1.weightage_percentage
              focus_topics := p.1.focus_topics
              difficulty := p.1.difficulty_level })
          [] = distributionList chs2 t := by
      have hrw := List.foldl_map
        (fun p : ChapterWeightage × Int =>
          (p.1.document_id,
            ({ questions := max 1 p.2
               chapter_name := p.1.chapter_name
               weightage := p.1.weightage_percentage
               focus_topics := p.1.focus_topics
               difficulty := p.1.difficulty_level } : DistInfo)))
        (fun (acc : List (List Char × DistInfo)) (q : List Char × DistInfo) =>
          dictInsert acc q.1 q.2)
        (chs2.zip (questionCounts chs2 t)) []
      have hkeys : ((chs2.zip (questionCounts chs2 t)).map
          (fun p => p.1.document_id)) = chs2.map (fun ch => ch.document_id) := by
        have : (chs2.zip (questionCounts chs2 t)).map Prod.fst = chs2 :=
          List.map_fst_zip _ _ (le_of_eq hlen.symm)
        calc (chs2.zip (questionCounts chs2 t)).map (fun p => p.1.document_id)
            = ((chs2.zip (questionCounts chs2 t)).map Prod.fst).map
                (fun ch => ch.document_id) := by
              simp [List.map_map]
          _ = chs2.map (fun ch => ch.document_id) := by rw [this]
      have hnodup : ((distributionList chs2 t).map Prod.fst).Nodup := by
        have : (distributionList chs2 t).map Prod.fst =
            chs2.map (fun ch => ch.document_id) := by
          simp only [distributionList, List.map_map]
          exact hkeys
        rw [this, hids2]
        exact hids
      calc (chs2.zip (questionCounts chs2 t)).foldl _ [] =
            (distributionList chs2 t).foldl
              (fun acc q => dictInsert acc q.1 q.2) [] := by
            rw [distributionList, ← hrw]
        _ = [] ++ distributionList chs2 t :=
            foldl_dictInsert_nodup _ [] hnodup (by intro p hp; simp at hp)
        _ = distributionList chs2 t := by simp
    simp only [calculate_question_distribution, hn, Option.map_some]
    exact congrArg some hmapfold
  · intro i hi
    exact questionCountsGo_get chs2 t _ i hi
  · intro hall
    have : (questionCounts chs2 t).map (fun c => max 1 c) = questionCounts chs2 t := by
      calc (questionCounts chs2 t).map (fun c => max 1 c)
          = (questionCounts chs2 t).map id := by
            exact List.map_congr_left (fun c hc => max_eq_right (hall c hc))
        _ = questionCounts chs2 t := List.map_id _
    rw [questionQuotas, this]
    exact questionCounts_sum chs2 t hne2
  · have h1 : (questionCounts chs2 t).sum ≤ (questionQuotas chs2 t).sum := by
      have := List.sum_le_sum (l := questionCounts chs2 t)
        (f := id) (g := fun c => max 1 c)
        (fun c _ => le_max_right 1 c)
      simpa [questionQuotas, List.map_id] using this
    rw [← questionCounts_sum chs2 t hne2]
    exact h1

/-- C1 counterexamples.  (i) On a source list whose percentages sum to zero
the source raises `ZeroDivisionError` during normalisation instead of
producing quotas, so the claimed quota equations hold for no output at all.
(ii) The claimed floor share is wrong even away from the zero-total case:
with sources declared 29%/71% over 100 questions (every amended hypothesis
holds), the first source receives `int((29 / 100) * 100) = 28`, one below the
exact floor share `floor(29 * 100 / 100) = 29`, because the double `29 / 100`
falls just below the real value `0.29` and the truncation then drops the
whole unit; the last source absorbs 72 and the quotas still sum to 100. -/
theorem calculate_question_distribution_cex :
    calculate_question_distribution chsZero 20 = none ∧
    (questionCounts chsUlp 100).get? 0 = some 28 ∧
    (28 : Int) ≠ ((29 * 100 / 100 : Nat) : Int) ∧
    questionQuotas chsUlp 100 = [28, 72] ∧
    calculate_question_distribution chsUlp 100 = some (distributionList chsUlp 100) ∧
    (questionQuotas chsUlp 100).sum = 100 := by
  refine ⟨by decide, by decide, by decide, by decide, ?_, by decide⟩
  decide

/-- C1 witness: the 40/35/25 scenario over 20 questions. -/
theorem calculate_question_distribution_witness :
    normalizeWeightages chsScenario = some chsScenario ∧
    calculate_question_distribution chsScenario 20 = some (distributionList chsScenario 20) ∧
    (questionQuotas chsScenario 20).sum = (20 : Int) ∧
    questionQuotas chsScenario 20 = [8, 7, 5] := by
  obtain ⟨chs2, h1, h2, _, _, h5, _⟩ :=
    calculate_question_distribution_correct chsScenario 20 (by decide) (by decide) (by decide)
  have h0 : normalizeWeightages chsScenario = some chsScenario := by decide
  have he : chs2 = chsScenario := (Option.some.inj (h0.symm.trans h1)).symm
  subst he
  exact ⟨h1, h2, h5 (by decide), by decide⟩

theorem dropWhile_eq_self_of_head (p : Char → Bool) (l : List Char)
    (h : ∀ c, l.head? = some c → p c = false) : l.dropWhile p = l := by
  cases l with
  | nil => rfl
  | cons c rest =>
    have hc := h c rfl
    simp [List.dropWhile_cons, hc]

theorem head?_dropWhile_false (p : Char → Bool) (l : List Char) :
    ∀ c, (l.dropWhile p).head? = some c → p c = false := by
  intro c hc
  have hne : l.dropWhile p ≠ [] := by
    intro h; rw [h] at hc; cases hc
  have h2 : (l.dropWhile p).head? = some ((l.dropWhile p).head hne) :=
    List.head?_eq_head hne
  rw [h2] at hc
  have h3 := Option.some.inj hc
  rw [← h3]
  exact List.head_dropWhile_not p l hne

theorem getLast?_dropWhile (p : Char → Bool) (l : List Char)
    (hne : l.dropWhile p ≠ []) : (l.dropWhile p).getLast? = l.getLast? := by
  obtain ⟨pre, hpre⟩ := List.dropWhile_suffix (l := l) p
  conv_rhs => rw [← hpre]
  rw [List.getLast?_append]
  cases hd : (l.dropWhile p).getLast? with
  | none =>
    exact absurd (List.getLast?_eq_none_iff.mp hd) hne
  | some x => simp [hd]

/-- `str.strip` is idempotent. -/
theorem pyStrip_idem (l : List Char) : pyStrip (pyStrip l) = pyStrip l := by
  unfold pyStrip
  by_cases hwe : (l.dropWhile isPySpace).reverse.dropWhile isPySpace = []
  · rw [hwe]; simp
  · have h1 : ((l.dropWhile isPySpace).reverse.dropWhile isPySpace).reverse.dropWhile
        isPySpace = ((l.dropWhile isPySpace).reverse.dropWhile isPySpace).reverse := by
      apply dropWhile_eq_self_of_head
      intro c hc
      rw [List.head?_reverse] at hc
      rw [getLast?_dropWhile isPySpace (l.dropWhile isPySpace).reverse hwe] at hc
      rw [List.getLast?_reverse] at hc
      exact head?_dropWhile_false isPySpace l c hc
    rw [h1, List.reverse_reverse]
    have h2 : ((l.dropWhile isPySpace).reverse.dropWhile isPySpace).dropWhile isPySpace
        = (l.dropWhile isPySpace).reverse.dropWhile isPySpace := by
      apply dropWhile_eq_self_of_head
      intro c hc
      exact head?_dropWhile_false isPySpace (l.dropWhile isPySpace).reverse c hc
    rw [h2]

/-- The chunker's cleaned text is already stripped. -/
theorem pyStrip_cleanText (l : List Char) : pyStrip (cleanText l) = cleanText l := by
  unfold cleanText
  exact pyStrip_idem _

/-- C8 (amended): a text that cleans to a non-empty string shorter than
`target_size` AND no longer than `target_size - overlap` yields exactly the
one chunk `(cleaned_text, 0)`; a text that cleans to empty yields no chunks.
(`chunks_one_chunk_cex` refutes the original claim, which omitted the second
length bound.) -/
theorem chunks_short_text (size olap : Nat) (t : List Char) :
    (cleanText t ≠ [] → (cleanText t).length < size →
      (cleanText t).length + olap ≤ size → chunks size olap t = [(cleanText t, 0)]) ∧
    (cleanText t = [] → chunks size olap t = []) := by
  constructor
  · intro hne hlt hle
    have hn1 : 0 < (cleanText t).length := List.length_pos.mpr hne
    have hw : chunkWindow size (cleanText t) 0 = (cleanText t, size) := by
      unfold chunkWindow
      have h1 : ((cleanText t).drop 0).take size = cleanText t := by
        rw [List.drop_zero]
        exact List.take_of_length_le (le_of_lt hlt)
      have h2 : ¬ (0 + size < (cleanText t).length) := by omega
      simp only [h1, if_neg h2]
      rw [Nat.zero_add]
    have hstep : chunkStep size olap (cleanText t) 0 = size - olap := by
      unfold chunkStep
      rw [hw]
      have h3 : ¬ (size - olap = 0) := by omega
      simp [h3]
    have hstop : ¬ (size - olap < (cleanText t).length) := by omega
    obtain ⟨n, hn⟩ : ∃ n, (cleanText t).length = n + 1 := ⟨(cleanText t).length - 1, by omega⟩
    show chunksGo size olap (cleanText t) ((cleanText t).length + 1) 0 0 = [(cleanText t, 0)]
    rw [chunksGo]
    simp [hw, hstep, pyStrip_cleanText, hn1, hne]
    rw [hn, chunksGo, if_neg hstop]
  · intro h
    show chunksGo size olap (cleanText t) ((cleanText t).length + 1) 0 0 = []
    rw [h, chunksGo]
    simp

/-- C8 counterexample: a 9-character cleaned text with `size = 10, overlap = 8`
is strictly shorter than `target_size` yet yields 5 chunks, not 1 (the cursor
re-enters the text at `size - overlap = 2, 4, 6, 8`). -/
theorem chunks_one_chunk_cex :
    (chunks 10 8 (strC "bbbbbbbbb")).length = 5 ∧
    cleanText (strC "bbbbbbbbb") ≠ [] ∧
    (cleanText (strC "bbbbbbbbb")).length < 10 := by
  decide

/-- C8 witness: an 11-character text under the default-style configuration
`size = 50, overlap = 10`. -/
theorem chunks_short_text_witness :
    chunks 50 10 (strC "hello paper") = [(cleanText (strC "hello paper"), 0)] ∧
    cleanText (strC "hello paper") ≠ [] :=
  ⟨(chunks_short_text 50 10 (strC "hello paper")).1 (by decide) (by decide) (by decide),
   by decide⟩

/-- C3: the claim of strict cursor advancement (and hence termination) fails.
With `size = 10, overlap = 10` on a 30-character terminator-free text the
cursor steps 0 ↦ 10 ↦ 10 ↦ ...: at `start = 10` the normal advance
`end - overlap = 20 - 10` does not move the cursor and the `start <= 0` guard
(the source's only forced advancement, `chunker.py` lines 44-46) does not
fire, so the loop re-yields the same window forever. -/
theorem chunker_cursor_stalls :
    chunkStep 10 10 (cleanText (strC "bbbbbbbbbbbbbbbbbbbbbbbbbbbbbb")) 0 = 10 ∧
    chunkStep 10 10 (cleanText (strC "bbbbbbbbbbbbbbbbbbbbbbbbbbbbbb")) 10 = 10 ∧
    10 < (cleanText (strC "bbbbbbbbbbbbbbbbbbbbbbbbbbbbbb")).length := by
  decide

theorem sqDist_nonneg (q v : List Int) : 0 ≤ sqDist q v := by
  apply List.sum_nonneg
  intro x hx
  obtain ⟨p, _, hpe⟩ := List.mem_map.mp hx
  rw [← hpe]
  exact mul_self_nonneg _

/-- C7: searching an empty store returns `[]` and raises nothing, for every
query, `k`, filter and embedding oracle. -/
theorem search_empty_store (E : List Char → Except (List Char) (List Int))
    (s : VecStore) (q : List Char) (k : Nat) (f : Option MetaRec)
    (h : s.vecs = []) : search E s q k f = [] := by
  unfold search searchCore
  cases hE : E q with
  | error e => rfl
  | ok qv =>
    have h0 : s.vecs.length = 0 := by rw [h]; rfl
    simp [h0]

/-- C7 witness: a concrete empty store. -/
theorem search_empty_store_witness :
    search (constE [1, 2]) { vecs := [], meta := [] } (strC "anything") 8 none = [] :=
  search_empty_store (constE [1, 2]) { vecs := [], meta := [] } (strC "anything") 8 none rfl

/-- C10: `search` converts every raised error into `[]` (the whole body sits
in `try/except`): if the embedding oracle raises, the caller sees `[]`; and in
general the caller either sees the successful result of the body or `[]`,
never a propagated exception. -/
theorem search_never_raises (E : List Char → Except (List Char) (List Int))
    (s : VecStore) (q : List Char) (k : Nat) (f : Option MetaRec) :
    (∀ msg, E q = Except.error msg → search E s q k f = []) ∧
    (search E s q k f = [] ∨ searchCore E s q k f = Except.ok (search E s q k f)) := by
  constructor
  · intro msg h
    have hc : searchCore E s q k f = Except.error msg := by
      unfold searchCore
      rw [h]
    unfold search
    rw [hc]
  · cases hc : searchCore E s q k f with
    | ok r =>
      right
      unfold search
      rw [hc]
    | error e =>
      left
      unfold search
      rw [hc]

/-- C10 witness: a failing embedding provider on a non-empty store yields `[]`. -/
theorem search_never_raises_witness :
    search failE { vecs := [[7]], meta := [(0, [(strC "k", strC "v")])] } (strC "q") 3 none
      = [] :=
  (search_never_raises failE
    { vecs := [[7]], meta := [(0, [(strC "k", strC "v")])] } (strC "q") 3 none).1
    (strC "boom") rfl

/-- C9 counterexample: on a store whose index holds vector id 0 with no
metadata row 0, `search` silently drops the skewed id and returns the normal
(non-error) empty result — skew is tolerated, not fatal. -/
theorem search_skew_cex :
    skewStore.vecs.length = 1 ∧ lookupMeta skewStore.meta 0 = none ∧
    searchCore (constE [0, 0]) skewStore (strC "q") 1 none = Except.ok [] ∧
    search (constE [0, 0]) skewStore (strC "q") 1 none = [] :=
  ⟨rfl, rfl, rfl, rfl⟩

/-- C9 (amended): retrieval never fails because of vector/metadata skew: as
soon as the query embedding succeeds, `search` returns a normal `.ok` result
in which every hit is backed by a metadata row; ids without a metadata row
are silently dropped (`retriever.py` lines 66-71). -/
theorem search_drops_skewed_ids (E : List Char → Except (List Char) (List Int))
    (s : VecStore) (q : List Char) (k : Nat) (f : Option MetaRec)
    (qv : List Int) (hE : E q = Except.ok qv) :
    ∃ r, searchCore E s q k f = Except.ok r ∧
      ∀ h ∈ r, ∃ id, lookupMeta s.meta id = some h.data := by
  by_cases h0 : s.vecs.length = 0
  · refine ⟨[], ?_, by intro h hh; cases hh⟩
    unfold searchCore
    rw [hE]
    dsimp only
    rw [if_pos h0]
  · by_cases hres : searchCandidates s qv k = []
    · refine ⟨[], ?_, by intro h hh; cases hh⟩
      unfold searchCore
      rw [hE]
      dsimp only
      rw [if_neg h0, if_pos hres]
    · refine ⟨(List.insertionSort
        (fun a b : SearchHit => a.similarity_score ≤ b.similarity_score)
        (searchChunks s qv k f)).take k, ?_, ?_⟩
      · unfold searchCore
        rw [hE]
        dsimp only
        rw [if_neg h0, if_neg hres]
      · intro h hh
        have h1 := List.mem_of_mem_take hh
        have h2 := (List.perm_insertionSort
          (fun a b : SearchHit => a.similarity_score ≤ b.similarity_score)
          (searchChunks s qv k f)).subset h1
        have h3 : h ∈ (searchCandidates s qv k).filterMap
            (fun p => (lookupMeta s.meta p.1).map (fun m => SearchHit.mk m p.2)) := by
          unfold searchChunks at h2
          cases f with
          | none => exact h2
          | some flt => exact (List.mem_filter.mp h2).1
        obtain ⟨p, _, hp⟩ := List.mem_filterMap.mp h3
        obtain ⟨m, hm, hmk⟩ := Option.map_eq_some'.mp hp
        refine ⟨p.1, ?_⟩
        rw [hm, ← hmk]

/-- C9 amended-theorem witness: the skewed store itself. -/
theorem search_drops_skewed_ids_witness :
    ∃ r, searchCore (constE [0, 0]) skewStore (strC "q") 1 none = Except.ok r ∧
      ∀ h ∈ r, ∃ id, lookupMeta skewStore.meta id = some h.data :=
  search_drops_skewed_ids (constE [0, 0]) skewStore (strC "q") 1 none [0, 0] rfl

/-- C2: (1) `add_embeddings` of `n` vectors with `n` metadata records into an
aligned store of `N` vectors appends the vectors at slots `N..N+n-1` and the
metadata rows under the same keys `N..N+n-1`, preserving alignment;
(2) querying a stored vector against itself (all other vectors at nonzero
distance) returns that id first, at distance 0. -/
theorem add_embeddings_aligned :
    (∀ (s : VecStore) (vecs : List (List Int)) (metas : List MetaRec),
      metas.length = vecs.length → alignedStore s →
        (add_embeddings s vecs metas).vecs = s.vecs ++ vecs ∧
        (add_embeddings s vecs metas).meta.map Prod.fst =
          List.range (s.vecs.length + vecs.length) ∧
        alignedStore (add_embeddings s vecs metas)) ∧
    (∀ (vecs : List (List Int)) (q : List Int) (k j : Nat) (hj : j < vecs.length),
      1 ≤ k → sqDist q (vecs.get ⟨j, hj⟩) = 0 →
      (∀ (i : Nat) (hi : i < vecs.length), i ≠ j → sqDist q (vecs.get ⟨i, hi⟩) ≠ 0) →
      (faissSearch vecs q k).head? = some (j, 0)) := by
  constructor
  · intro s vecs metas hlen halign
    have hmeta : (add_embeddings s vecs metas).meta.map Prod.fst =
        List.range (s.vecs.length + vecs.length) := by
      show (s.meta ++ metas.enum.map
        (fun p => (s.vecs.length + p.1, p.2))).map Prod.fst = _
      rw [List.map_append, halign]
      have h1 : (metas.enum.map (fun p => (s.vecs.length + p.1, p.2))).map Prod.fst
          = (List.range metas.length).map (fun i => s.vecs.length + i) := by
        rw [List.map_map, ← List.enum_map_fst metas, List.map_map]
        rfl
      rw [h1, hlen, List.range_add]
    refine ⟨rfl, hmeta, ?_⟩
    show (add_embeddings s vecs metas).meta.map Prod.fst =
      List.range (add_embeddings s vecs metas).vecs.length
    rw [hmeta]
    have : (add_embeddings s vecs metas).vecs.length = s.vecs.length + vecs.length := by
      show (s.vecs ++ vecs).length = _
      simp
    rw [this]
  · intro vecs q k j hj hk h0 hothers
    haveI hTot : IsTotal (Nat × Int) (fun a b => a.2 ≤ b.2) :=
      ⟨fun a b => le_total a.2 b.2⟩
    haveI hTrans : IsTrans (Nat × Int) (fun a b => a.2 ≤ b.2) :=
      ⟨fun _ _ _ h1 h2 => le_trans h1 h2⟩
    have hmemdl : ((j, (0 : Int)) ∈
        vecs.enum.map (fun p => (p.1, sqDist q p.2))) := by
      refine List.mem_map.mpr ⟨(j, vecs.get ⟨j, hj⟩), ?_, by rw [h0]⟩
      refine List.mem_enum_iff_getElem?.mpr ?_
      exact List.getElem?_eq_some_iff.mpr ⟨hj, rfl⟩
    have hchar : ∀ x ∈ vecs.enum.map (fun p => (p.1, sqDist q p.2)),
        0 ≤ x.2 ∧ (x.2 = 0 → x = (j, (0 : Int))) := by
      intro x hx
      obtain ⟨p, hp, hpe⟩ := List.mem_map.mp hx
      have hpm := List.mem_enum_iff_getElem?.mp hp
      obtain ⟨hplt, hpget⟩ := List.getElem?_eq_some_iff.mp hpm
      constructor
      · rw [← hpe]; exact sqDist_nonneg _ _
      · intro hx0
        by_cases hpj : p.1 = j
        · have : x.1 = j := by rw [← hpe, hpj]
          cases x with
          | mk a b =>
            simp only at this hx0
            rw [this, hx0]
        · exfalso
          apply hothers p.1 hplt hpj
          have : x.2 = sqDist q (vecs.get ⟨p.1, hplt⟩) := by
            rw [← hpe]
            simp only
            congr 1
            rw [← hpget]
            simp
          rw [← this, hx0]
    have hperm := List.perm_insertionSort (fun a b : Nat × Int => a.2 ≤ b.2)
      (vecs.enum.map (fun p => (p.1, sqDist q p.2)))
    have hsorted : List.Sorted (fun a b : Nat × Int => a.2 ≤ b.2)
        (List.insertionSort (fun a b : Nat × Int => a.2 ≤ b.2)
          (vecs.enum.map (fun p => (p.1, sqDist q p.2)))) :=
      List.sorted_insertionSort _ _
    have hmem2 : ((j, (0 : Int)) ∈ List.insertionSort (fun a b : Nat × Int => a.2 ≤ b.2)
        (vecs.enum.map (fun p => (p.1, sqDist q p.2)))) := hperm.symm.subset hmemdl
    unfold faissSearch
    cases hc : List.insertionSort (fun a b : Nat × Int => a.2 ≤ b.2)
        (vecs.enum.map (fun p => (p.1, sqDist q p.2))) with
    | nil => rw [hc] at hmem2; cases hmem2
    | cons y ys =>
      have hymem : y ∈ vecs.enum.map (fun p => (p.1, sqDist q p.2)) := by
        apply hperm.subset
        rw [hc]
        exact List.mem_cons_self y ys
      have hy := hchar y hymem
      have hyle : y.2 ≤ 0 := by
        rw [hc] at hmem2
        rcases List.mem_cons.mp hmem2 with he | hmemys
        · rw [← he]
        · rw [hc] at hsorted
          exact List.rel_of_sorted_cons hsorted _ hmemys
      have hy0 : y.2 = 0 := le_antisymm hyle hy.1
      have hyj : y = (j, (0 : Int)) := hy.2 hy0
      rw [List.head?_take]
      have hkne : ¬ (k = 0) := by omega
      rw [if_neg hkne, hyj]
      rfl

/-- C2 witness: five distinct vectors into an empty store get ids 0-4, and
querying the third of them returns `(2, 0)` first. -/
theorem add_embeddings_aligned_witness :
    (add_embeddings { vecs := [], meta := [] } fiveVecs fiveMetas).meta.map Prod.fst
      = [0, 1, 2, 3, 4] ∧
    (faissSearch fiveVecs [6, 0] 5).head? = some (2, 0) := by
  constructor
  · have h1 := (add_embeddings_aligned.1 { vecs := [], meta := [] } fiveVecs fiveMetas
      (by decide) (by rfl)).2.1
    rw [h1]
    decide
  · exact add_embeddings_aligned.2 fiveVecs [6, 0] 5 2 (by decide) (by decide)
      (by decide) (by decide)

theorem replaceScan_skipN (pat rep : List Char) :
    ∀ (u w : List Char), replaceScan pat rep (u ++ w) u.length = replaceScan pat rep w 0 := by
  intro u
  induction u with
  | nil => intro w; rfl
  | cons c u2 ih =>
    intro w
    show replaceScan pat rep (c :: (u2 ++ w)) (u2.length + 1) = _
    simp only [replaceScan]
    rw [if_pos (Nat.succ_pos u2.length)]
    simpa using ih w

theorem replaceScan_no_lbrace (t rep : List Char) :
    ∀ (u w : List Char), lbrace ∉ u →
      replaceScan (lbrace :: t) rep (u ++ w) 0 = u ++ replaceScan (lbrace :: t) rep w 0 := by
  intro u
  induction u with
  | nil => intro w _; rfl
  | cons c u2 ih =>
    intro w hu
    have hc : (lbrace == c) = false := by
      apply beq_eq_false_iff_ne.mpr
      intro h
      exact hu (h ▸ List.mem_cons_self c u2)
    show replaceScan (lbrace :: t) rep (c :: (u2 ++ w)) 0 =
      c :: (u2 ++ replaceScan (lbrace :: t) rep w 0)
    simp only [replaceScan, Nat.lt_irrefl, if_false, List.isPrefixOf, hc,
      Bool.false_and, Bool.false_eq_true]
    exact congrArg (c :: ·) (ih w (fun hm => hu (List.mem_cons_of_mem c hm)))

theorem replaceScan_noOccur (pat rep : List Char) :
    ∀ l, noOccurB pat l = true → replaceScan pat rep l 0 = l := by
  intro l
  induction l with
  | nil => intro _; rfl
  | cons c rest ih =>
    intro h
    simp only [noOccurB, Bool.and_eq_true, Bool.not_eq_true'] at h
    simp only [replaceScan, Nat.lt_irrefl, if_false, h.1, Bool.false_eq_true]
    exact congrArg (c :: ·) (ih h.2)

theorem replaceAll_step (key v R S : List Char) (hS : lbrace ∉ S)
    (hno : noOccurB (lbrace :: (key ++ [rbrace])) R = true) :
    replaceAll (lbrace :: (key ++ [rbrace])) v (S ++ ((lbrace :: (key ++ [rbrace])) ++ R))
      = S ++ (v ++ R) := by
  show replaceScan (lbrace :: (key ++ [rbrace])) v
    (S ++ ((lbrace :: (key ++ [rbrace])) ++ R)) 0 = _
  rw [replaceScan_no_lbrace (key ++ [rbrace]) v S ((lbrace :: (key ++ [rbrace])) ++ R) hS]
  congr 1
  show replaceScan (lbrace :: (key ++ [rbrace])) v
    (lbrace :: ((key ++ [rbrace]) ++ R)) 0 = v ++ R
  have hpf : (lbrace :: (key ++ [rbrace])).isPrefixOf
      (lbrace :: ((key ++ [rbrace]) ++ R)) = true := by
    apply List.isPrefixOf_iff_prefix.mpr
    have : lbrace :: ((key ++ [rbrace]) ++ R) = (lbrace :: (key ++ [rbrace])) ++ R := rfl
    rw [this]
    exact List.prefix_append _ _
  simp only [replaceScan, Nat.lt_irrefl, if_false, hpf, if_true]
  congr 1
  have hlen : (lbrace :: (key ++ [rbrace])).length - 1 = (key ++ [rbrace]).length := by
    simp
  rw [hlen, replaceScan_skipN]
  exact replaceScan_noOccur _ v R hno

theorem foldl_replace_split :
    ∀ (ps : List (List Char × List Char)) (rest out chain : List Char),
      SplitSpec ps rest out → lbrace ∉ chain →
      ps.foldl (fun doc kv => replaceAll (lbrace :: (kv.1 ++ [rbrace])) kv.2 doc)
        (chain ++ rest) = chain ++ out := by
  intro ps rest out chain hsplit
  induction hsplit generalizing chain with
  | nil rest => intro _; simp
  | cons key v S R out2 ps2 hS hv hno _hsp ih =>
    intro hchain
    have hcs : lbrace ∉ chain ++ S := by
      intro hm
      rcases List.mem_append.mp hm with h | h
      · exact hchain h
      · exact hS h
    have hcsv : lbrace ∉ (chain ++ S) ++ v := by
      intro hm
      rcases List.mem_append.mp hm with h | h
      · exact hcs h
      · exact hv h
    have h2 : replaceAll (lbrace :: (key ++ [rbrace])) v
        (chain ++ (S ++ ((lbrace :: (key ++ [rbrace])) ++ R))) = ((chain ++ S) ++ v) ++ R := by
      have ha : chain ++ (S ++ ((lbrace :: (key ++ [rbrace])) ++ R))
          = (chain ++ S) ++ ((lbrace :: (key ++ [rbrace])) ++ R) := by
        simp [List.append_assoc]
      rw [ha, replaceAll_step key v R (chain ++ S) hcs hno]
      simp [List.append_assoc]
    calc ((key, v) :: ps2).foldl
          (fun doc kv => replaceAll (lbrace :: (kv.1 ++ [rbrace])) kv.2 doc)
          (chain ++ (S ++ ((lbrace :: (key ++ [rbrace])) ++ R)))
        = ps2.foldl (fun doc kv => replaceAll (lbrace :: (kv.1 ++ [rbrace])) kv.2 doc)
            (((chain ++ S) ++ v) ++ R) := by rw [List.foldl_cons, h2]
      _ = ((chain ++ S) ++ v) ++ out2 := ih _ hcsv
      _ = chain ++ (S ++ (v ++ out2)) := by simp [List.append_assoc]
/-- The template split at its 21 placeholders. -/
theorem template_split : TEMPLATE_80_MARKS = tRest0 := by decide

/-- Substituting brace-free values for the 21 placeholders turns the
template into the interleaving of its literal segments with the values. -/
theorem fillTemplate_shape (pc q1 q2 q3 q4 q5 q6 q7 q8 q9 q10 q11 q12 q13 q14 q15 q16 q17 q18 q19 q20 : List Char)
    (hpc : lbrace ∉ pc)
    (hv1 : lbrace ∉ pyStrip q1) (hv2 : lbrace ∉ pyStrip q2) (hv3 : lbrace ∉ pyStrip q3) (hv4 : lbrace ∉ pyStrip q4)
    (hv5 : lbrace ∉ pyStrip q5) (hv6 : lbrace ∉ pyStrip q6) (hv7 : lbrace ∉ pyStrip q7) (hv8 : lbrace ∉ pyStrip q8)
    (hv9 : lbrace ∉ pyStrip q9) (hv10 : lbrace ∉ pyStrip q10) (hv11 : lbrace ∉ pyStrip q11) (hv12 : lbrace ∉ pyStrip q12)
    (hv13 : lbrace ∉ pyStrip q13) (hv14 : lbrace ∉ pyStrip q14) (hv15 : lbrace ∉ pyStrip q15) (hv16 : lbrace ∉ pyStrip q16)
    (hv17 : lbrace ∉ pyStrip q17) (hv18 : lbrace ∉ pyStrip q18) (hv19 : lbrace ∉ pyStrip q19) (hv20 : lbrace ∉ pyStrip q20)
    :
    fillTemplate pc [q1, q2, q3, q4, q5, q6, q7, q8, q9, q10, q11, q12, q13, q14, q15, q16, q17, q18, q19, q20] = glue (tmplSegs.zip (pc :: [pyStrip q1, pyStrip q2, pyStrip q3, pyStrip q4, pyStrip q5, pyStrip q6, pyStrip q7, pyStrip q8, pyStrip q9, pyStrip q10, pyStrip q11, pyStrip q12, pyStrip q13, pyStrip q14, pyStrip q15, pyStrip q16, pyStrip q17, pyStrip q18, pyStrip q19, pyStrip q20])) tsegEnd := by
  have hpairs : replacementPairs pc [q1, q2, q3, q4, q5, q6, q7, q8, q9, q10, q11, q12, q13, q14, q15, q16, q17, q18, q19, q20] = [(strC "paper_code", pc), (strC "Q1_A", pyStrip q1), (strC "Q1_B", pyStrip q2), (strC "Q1_C", pyStrip q3), (strC "Q1_D", pyStrip q4), (strC "Q1_E", pyStrip q5), (strC "Q2_A", pyStrip q6), (strC "Q2_B", pyStrip q7), (strC "Q2_C", pyStrip q8), (strC "Q2_D", pyStrip q9), (strC "Q2_E", pyStrip q10), (strC "Q3_A", pyStrip q11), (strC "Q3_B", pyStrip q12), (strC "Q3_C", pyStrip q13), (strC "Q3_D", pyStrip q14), (strC "Q3_E", pyStrip q15), (strC "Q4_A", pyStrip q16), (strC "Q4_B", pyStrip q17), (strC "Q4_C", pyStrip q18), (strC "Q4_D", pyStrip q19), (strC "Q4_E", pyStrip q20)] := rfl
  have h21 : SplitSpec [] tRest21 (glue [] tsegEnd) := SplitSpec.nil tsegEnd
  have h20 : SplitSpec [(strC "Q4_E", pyStrip q20)] tRest20 (glue [(tseg5, pyStrip q20)] tsegEnd) :=
    SplitSpec.cons (strC "Q4_E") (pyStrip q20) tseg5 tRest21 _ _ (by decide) hv20 (by decide) h21
  have h19 : SplitSpec [(strC "Q4_D", pyStrip q19), (strC "Q4_E", pyStrip q20)] tRest19 (glue [(tseg4, pyStrip q19), (tseg5, pyStrip q20)] tsegEnd) :=
    SplitSpec.cons (strC "Q4_D") (pyStrip q19) tseg4 tRest20 _ _ (by decide) hv19 (by decide) h20
  have h18 : SplitSpec [(strC "Q4_C", pyStrip q18), (strC "Q4_D", pyStrip q19), (strC "Q4_E", pyStrip q20)] tRest18 (glue [(tseg3, pyStrip q18), (tseg4, pyStrip q19), (tseg5, pyStrip q20)] tsegEnd) :=
    SplitSpec.cons (strC "Q4_C") (pyStrip q18) tseg3 tRest19 _ _ (by decide) hv18 (by decide) h19
  have h17 : SplitSpec [(strC "Q4_B", pyStrip q17), (strC "Q4_C", pyStrip q18), (strC "Q4_D", pyStrip q19), (strC "Q4_E", pyStrip q20)] tRest17 (glue [(tseg2, pyStrip q17), (tseg3, pyStrip q18), (tseg4, pyStrip q19), (tseg5, pyStrip q20)] tsegEnd) :=
    SplitSpec.cons (strC "Q4_B") (pyStrip q17) tseg2 tRest18 _ _ (by decide) hv17 (by decide) h18
  have h16 : SplitSpec [(strC "Q4_A", pyStrip q16), (strC "Q4_B", pyStrip q17), (strC "Q4_C", pyStrip q18), (strC "Q4_D", pyStrip q19), (strC "Q4_E", pyStrip q20)] tRest16 (glue [(tseg8, pyStrip q16), (tseg2, pyStrip q17), (tseg3, pyStrip q18), (tseg4, pyStrip q19), (tseg5, pyStrip q20)] tsegEnd) :=
    SplitSpec.cons (strC "Q4_A") (pyStrip q16) tseg8 tRest17 _ _ (by decide) hv16 (by decide) h17
  have h15 : SplitSpec [(strC "Q3_E", pyStrip q15), (strC "Q4_A", pyStrip q16), (strC "Q4_B", pyStrip q17), (strC "Q4_C", pyStrip q18), (strC "Q4_D", pyStrip q19), (strC "Q4_E", pyStrip q20)] tRest15 (glue [(tseg5, pyStrip q15), (tseg8, pyStrip q16), (tseg2, pyStrip q17), (tseg3, pyStrip q18), (tseg4, pyStrip q19), (tseg5, pyStrip q20)] tsegEnd) :=
    SplitSpec.cons (strC "Q3_E") (pyStrip q15) tseg5 tRest16 _ _ (by decide) hv15 (by decide) h16
  have h14 : SplitSpec [(strC "Q3_D", pyStrip q14), (strC "Q3_E", pyStrip q15), (strC "Q4_A", pyStrip q16), (strC "Q4_B", pyStrip q17), (strC "Q4_C", pyStrip q18), (strC "Q4_D", pyStrip q19), (strC "Q4_E", pyStrip q20)] tRest14 (glue [(tseg4, pyStrip q14), (tseg5, pyStrip q15), (tseg8, pyStrip q16), (tseg2, pyStrip q17), (tseg3, pyStrip q18), (tseg4, pyStrip q19), (tseg5, pyStrip q20)] tsegEnd) :=
    SplitSpec.cons (strC "Q3_D") (pyStrip q14) tseg4 tRest15 _ _ (by decide) hv14 (by decide) h15
  have h13 : SplitSpec [(strC "Q3_C", pyStrip q13), (strC "Q3_D", pyStrip q14), (strC "Q3_E", pyStrip q15), (strC "Q4_A", pyStrip q16), (strC "Q4_B", pyStrip q17), (strC "Q4_C", pyStrip q18), (strC "Q4_D", pyStrip q19), (strC "Q4_E", pyStrip q20)] tRest13 (glue [(tseg3, pyStrip q13), (tseg4, pyStrip q14), (tseg5, pyStrip q15), (tseg8, pyStrip q16), (tseg2, pyStrip q17), (tseg3, pyStrip q18), (tseg4, pyStrip q19), (tseg5, pyStrip q20)] tsegEnd) :=
    SplitSpec.cons (strC "Q3_C") (pyStrip q13) tseg3 tRest14 _ _ (by decide) hv13 (by decide) h14
  have h12 : SplitSpec [(strC "Q3_B", pyStrip q12), (strC "Q3_C", pyStrip q13), (strC "Q3_D", pyStrip q14), (strC "Q3_E", pyStrip q15), (strC "Q4_A", pyStrip q16), (strC "Q4_B", pyStrip q17), (strC "Q4_C", pyStrip q18), (strC "Q4_D", pyStrip q19), (strC "Q4_E", pyStrip q20)] tRest12 (glue [(tseg2, pyStrip q12), (tseg3, pyStrip q13), (tseg4, pyStrip q14), (tseg5, pyStrip q15), (tseg8, pyStrip q16), (tseg2, pyStrip q17), (tseg3, pyStrip q18), (tseg4, pyStrip q19), (tseg5, pyStrip q20)] tsegEnd) :=
    SplitSpec.cons (strC "Q3_B") (pyStrip q12) tseg2 tRest13 _ _ (by decide) hv12 (by decide) h13
  have h11 : SplitSpec [(strC "Q3_A", pyStrip q11), (strC "Q3_B", pyStrip q12), (strC "Q3_C", pyStrip q13), (strC "Q3_D", pyStrip q14), (strC "Q3_E", pyStrip q15), (strC "Q4_A", pyStrip q16), (strC "Q4_B", pyStrip q17), (strC "Q4_C", pyStrip q18), (strC "Q4_D", pyStrip q19), (strC "Q4_E", pyStrip q20)] tRest11 (glue [(tseg7, pyStrip q11), (tseg2, pyStrip q12), (tseg3, pyStrip q13), (tseg4, pyStrip q14), (tseg5, pyStrip q15), (tseg8, pyStrip q16), (tseg2, pyStrip q17), (tseg3, pyStrip q18), (tseg4, pyStrip q19), (tseg5, pyStrip q20)] tsegEnd) :=
    SplitSpec.cons (strC "Q3_A") (pyStrip q11) tseg7 tRest12 _ _ (by decide) hv11 (by decide) h12
  have h10 : SplitSpec [(strC "Q2_E", pyStrip q10), (strC "Q3_A", pyStrip q11), (strC "Q3_B", pyStrip q12), (strC "Q3_C", pyStrip q13), (strC "Q3_D", pyStrip q14), (strC "Q3_E", pyStrip q15), (strC "Q4_A", pyStrip q16), (strC "Q4_B", pyStrip q17), (strC "Q4_C", pyStrip q18), (strC "Q4_D", pyStrip q19), (strC "Q4_E", pyStrip q20)] tRest10 (glue [(tseg5, pyStrip q10), (tseg7, pyStrip q11), (tseg2, pyStrip q12), (tseg3, pyStrip q13), (tseg4, pyStrip q14), (tseg5, pyStrip q15), (tseg8, pyStrip q16), (tseg2, pyStrip q17), (tseg3, pyStrip q18), (tseg4, pyStrip q19), (tseg5, pyStrip q20)] tsegEnd) :=
    SplitSpec.cons (strC "Q2_E") (pyStrip q10) tseg5 tRest11 _ _ (by decide) hv10 (by decide) h11
  have h9 : SplitSpec [(strC "Q2_D", pyStrip q9), (strC "Q2_E", pyStrip q10), (strC "Q3_A", pyStrip q11), (strC "Q3_B", pyStrip q12), (strC "Q3_C", pyStrip q13), (strC "Q3_D", pyStrip q14), (strC "Q3_E", pyStrip q15), (strC "Q4_A", pyStrip q16), (strC "Q4_B", pyStrip q17), (strC "Q4_C", pyStrip q18), (strC "Q4_D", pyStrip q19), (strC "Q4_E", pyStrip q20)] tRest9 (glue [(tseg4, pyStrip q9), (tseg5, pyStrip q10), (tseg7, pyStrip q11), (tseg2, pyStrip q12), (tseg3, pyStrip q13), (tseg4, pyStrip q14), (tseg5, pyStrip q15), (tseg8, pyStrip q16), (tseg2, pyStrip q17), (tseg3, pyStrip q18), (tseg4, pyStrip q19), (tseg5, pyStrip q20)] tsegEnd) :=
    SplitSpec.cons (strC "Q2_D") (pyStrip q9) tseg4 tRest10 _ _ (by decide) hv9 (by decide) h10
  have h8 : SplitSpec [(strC "Q2_C", pyStrip q8), (strC "Q2_D", pyStrip q9), (strC "Q2_E", pyStrip q10), (strC "Q3_A", pyStrip q11), (strC "Q3_B", pyStrip q12), (strC "Q3_C", pyStrip q13), (strC "Q3_D", pyStrip q14), (strC "Q3_E", pyStrip q15), (strC "Q4_A", pyStrip q16), (strC "Q4_B", pyStrip q17), (strC "Q4_C", pyStrip q18), (strC "Q4_D", pyStrip q19), (strC "Q4_E", pyStrip q20)] tRest8 (glue [(tseg3, pyStrip q8), (tseg4, pyStrip q9), (tseg5, pyStrip q10), (tseg7, pyStrip q11), (tseg2, pyStrip q12), (tseg3, pyStrip q13), (tseg4, pyStrip q14), (tseg5, pyStrip q15), (tseg8, pyStrip q16), (tseg2, pyStrip q17), (tseg3, pyStrip q18), (tseg4, pyStrip q19), (tseg5, pyStrip q20)] tsegEnd) :=
    SplitSpec.cons (strC "Q2_C") (pyStrip q8) tseg3 tRest9 _ _ (by decide) hv8 (by decide) h9
  have h7 : SplitSpec [(strC "Q2_B", pyStrip q7), (strC "Q2_C", pyStrip q8), (strC "Q2_D", pyStrip q9), (strC "Q2_E", pyStrip q10), (strC "Q3_A", pyStrip q11), (strC "Q3_B", pyStrip q12), (strC "Q3_C", pyStrip q13), (strC "Q3_D", pyStrip q14), (strC "Q3_E", pyStrip q15), (strC "Q4_A", pyStrip q16), (strC "Q4_B", pyStrip q17), (strC "Q4_C", pyStrip q18), (strC "Q4_D", pyStrip q19), (strC "Q4_E", pyStrip q20)] tRest7 (glue [(tseg2, pyStrip q7), (tseg3, pyStrip q8), (tseg4, pyStrip q9), (tseg5, pyStrip q10), (tseg7, pyStrip q11), (tseg2, pyStrip q12), (tseg3, pyStrip q13), (tseg4, pyStrip q14), (tseg5, pyStrip q15), (tseg8, pyStrip q16), (tseg2, pyStrip q17), (tseg3, pyStrip q18), (tseg4, pyStrip q19), (tseg5, pyStrip q20)] tsegEnd) :=
    SplitSpec.cons (strC "Q2_B") (pyStrip q7) tseg2 tRest8 _ _ (by decide) hv7 (by decide) h8
  have h6 : SplitSpec [(strC "Q2_A", pyStrip q6), (strC "Q2_B", pyStrip q7), (strC "Q2_C", pyStrip q8), (strC "Q2_D", pyStrip q9), (strC "Q2_E", pyStrip q10), (strC "Q3_A", pyStrip q11), (strC "Q3_B", pyStrip q12), (strC "Q3_C", pyStrip q13), (strC "Q3_D", pyStrip q14), (strC "Q3_E", pyStrip q15), (strC "Q4_A", pyStrip q16), (strC "Q4_B", pyStrip q17), (strC "Q4_C", pyStrip q18), (strC "Q4_D", pyStrip q19), (strC "Q4_E", pyStrip q20)] tRest6 (glue [(tseg6, pyStrip q6), (tseg2, pyStrip q7), (tseg3, pyStrip q8), (tseg4, pyStrip q9), (tseg5, pyStrip q10), (tseg7, pyStrip q11), (tseg2, pyStrip q12), (tseg3, pyStrip q13), (tseg4, pyStrip q14), (tseg5, pyStrip q15), (tseg8, pyStrip q16), (tseg2, pyStrip q17), (tseg3, pyStrip q18), (tseg4, pyStrip q19), (tseg5, pyStrip q20)] tsegEnd) :=
    SplitSpec.cons (strC "Q2_A") (pyStrip q6) tseg6 tRest7 _ _ (by decide) hv6 (by decide) h7
  have h5 : SplitSpec [(strC "Q1_E", pyStrip q5), (strC "Q2_A", pyStrip q6), (strC "Q2_B", pyStrip q7), (strC "Q2_C", pyStrip q8), (strC "Q2_D", pyStrip q9), (strC "Q2_E", pyStrip q10), (strC "Q3_A", pyStrip q11), (strC "Q3_B", pyStrip q12), (strC "Q3_C", pyStrip q13), (strC "Q3_D", pyStrip q14), (strC "Q3_E", pyStrip q15), (strC "Q4_A", pyStrip q16), (strC "Q4_B", pyStrip q17), (strC "Q4_C", pyStrip q18), (strC "Q4_D", pyStrip q19), (strC "Q4_E", pyStrip q20)] tRest5 (glue [(tseg5, pyStrip q5), (tseg6, pyStrip q6), (tseg2, pyStrip q7), (tseg3, pyStrip q8), (tseg4, pyStrip q9), (tseg5, pyStrip q10), (tseg7, pyStrip q11), (tseg2, pyStrip q12), (tseg3, pyStrip q13), (tseg4, pyStrip q14), (tseg5, pyStrip q15), (tseg8, pyStrip q16), (tseg2, pyStrip q17), (tseg3, pyStrip q18), (tseg4, pyStrip q19), (tseg5, pyStrip q20)] tsegEnd) :=
    SplitSpec.cons (strC "Q1_E") (pyStrip q5) tseg5 tRest6 _ _ (by decide) hv5 (by decide) h6
  have h4 : SplitSpec [(strC "Q1_D", pyStrip q4), (strC "Q1_E", pyStrip q5), (strC "Q2_A", pyStrip q6), (strC "Q2_B", pyStrip q7), (strC "Q2_C", pyStrip q8), (strC "Q2_D", pyStrip q9), (strC "Q2_E", pyStrip q10), (strC "Q3_A", pyStrip q11), (strC "Q3_B", pyStrip q12), (strC "Q3_C", pyStrip q13), (strC "Q3_D", pyStrip q14), (strC "Q3_E", pyStrip q15), (strC "Q4_A", pyStrip q16), (strC "Q4_B", pyStrip q17), (strC "Q4_C", pyStrip q18), (strC "Q4_D", pyStrip q19), (strC "Q4_E", pyStrip q20)] tRest4 (glue [(tseg4, pyStrip q4), (tseg5, pyStrip q5), (tseg6, pyStrip q6), (tseg2, pyStrip q7), (tseg3, pyStrip q8), (tseg4, pyStrip q9), (tseg5, pyStrip q10), (tseg7, pyStrip q11), (tseg2, pyStrip q12), (tseg3, pyStrip q13), (tseg4, pyStrip q14), (tseg5, pyStrip q15), (tseg8, pyStrip q16), (tseg2, pyStrip q17), (tseg3, pyStrip q18), (tseg4, pyStrip q19), (tseg5, pyStrip q20)] tsegEnd) :=
    SplitSpec.cons (strC "Q1_D") (pyStrip q4) tseg4 tRest5 _ _ (by decide) hv4 (by decide) h5
  have h3 : SplitSpec [(strC "Q1_C", pyStrip q3), (strC "Q1_D", pyStrip q4), (strC "Q1_E", pyStrip q5), (strC "Q2_A", pyStrip q6), (strC "Q2_B", pyStrip q7), (strC "Q2_C", pyStrip q8), (strC "Q2_D", pyStrip q9), (strC "Q2_E", pyStrip q10), (strC "Q3_A", pyStrip q11), (strC "Q3_B", pyStrip q12), (strC "Q3_C", pyStrip q13), (strC "Q3_D", pyStrip q14), (strC "Q3_E", pyStrip q15), (strC "Q4_A", pyStrip q16), (strC "Q4_B", pyStrip q17), (strC "Q4_C", pyStrip q18), (strC "Q4_D", pyStrip q19), (strC "Q4_E", pyStrip q20)] tRest3 (glue [(tseg3, pyStrip q3), (tseg4, pyStrip q4), (tseg5, pyStrip q5), (tseg6, pyStrip q6), (tseg2, pyStrip q7), (tseg3, pyStrip q8), (tseg4, pyStrip q9), (tseg5, pyStrip q10), (tseg7, pyStrip q11), (tseg2, pyStrip q12), (tseg3, pyStrip q13), (tseg4, pyStrip q14), (tseg5, pyStrip q15), (tseg8, pyStrip q16), (tseg2, pyStrip q17), (tseg3, pyStrip q18), (tseg4, pyStrip q19), (tseg5, pyStrip q20)] tsegEnd) :=
    SplitSpec.cons (strC "Q1_C") (pyStrip q3) tseg3 tRest4 _ _ (by decide) hv3 (by decide) h4
  have h2 : SplitSpec [(strC "Q1_B", pyStrip q2), (strC "Q1_C", pyStrip q3), (strC "Q1_D", pyStrip q4), (strC "Q1_E", pyStrip q5), (strC "Q2_A", pyStrip q6), (strC "Q2_B", pyStrip q7), (strC "Q2_C", pyStrip q8), (strC "Q2_D", pyStrip q9), (strC "Q2_E", pyStrip q10), (strC "Q3_A", pyStrip q11), (strC "Q3_B", pyStrip q12), (strC "Q3_C", pyStrip q13), (strC "Q3_D", pyStrip q14), (strC "Q3_E", pyStrip q15), (strC "Q4_A", pyStrip q16), (strC "Q4_B", pyStrip q17), (strC "Q4_C", pyStrip q18), (strC "Q4_D", pyStrip q19), (strC "Q4_E", pyStrip q20)] tRest2 (glue [(tseg2, pyStrip q2), (tseg3, pyStrip q3), (tseg4, pyStrip q4), (tseg5, pyStrip q5), (tseg6, pyStrip q6), (tseg2, pyStrip q7), (tseg3, pyStrip q8), (tseg4, pyStrip q9), (tseg5, pyStrip q10), (tseg7, pyStrip q11), (tseg2, pyStrip q12), (tseg3, pyStrip q13), (tseg4, pyStrip q14), (tseg5, pyStrip q15), (tseg8, pyStrip q16), (tseg2, pyStrip q17), (tseg3, pyStrip q18), (tseg4, pyStrip q19), (tseg5, pyStrip q20)] tsegEnd) :=
    SplitSpec.cons (strC "Q1_B") (pyStrip q2) tseg2 tRest3 _ _ (by decide) hv2 (by decide) h3
  have h1 : SplitSpec [(strC "Q1_A", pyStrip q1), (strC "Q1_B", pyStrip q2), (strC "Q1_C", pyStrip q3), (strC "Q1_D", pyStrip q4), (strC "Q1_E", pyStrip q5), (strC "Q2_A", pyStrip q6), (strC "Q2_B", pyStrip q7), (strC "Q2_C", pyStrip q8), (strC "Q2_D", pyStrip q9), (strC "Q2_E", pyStrip q10), (strC "Q3_A", pyStrip q11), (strC "Q3_B", pyStrip q12), (strC "Q3_C", pyStrip q13), (strC "Q3_D", pyStrip q14), (strC "Q3_E", pyStrip q15), (strC "Q4_A", pyStrip q16), (strC "Q4_B", pyStrip q17), (strC "Q4_C", pyStrip q18), (strC "Q4_D", pyStrip q19), (strC "Q4_E", pyStrip q20)] tRest1 (glue [(tseg1, pyStrip q1), (tseg2, pyStrip q2), (tseg3, pyStrip q3), (tseg4, pyStrip q4), (tseg5, pyStrip q5), (tseg6, pyStrip q6), (tseg2, pyStrip q7), (tseg3, pyStrip q8), (tseg4, pyStrip q9), (tseg5, pyStrip q10), (tseg7, pyStrip q11), (tseg2, pyStrip q12), (tseg3, pyStrip q13), (tseg4, pyStrip q14), (tseg5, pyStrip q15), (tseg8, pyStrip q16), (tseg2, pyStrip q17), (tseg3, pyStrip q18), (tseg4, pyStrip q19), (tseg5, pyStrip q20)] tsegEnd) :=
    SplitSpec.cons (strC "Q1_A") (pyStrip q1) tseg1 tRest2 _ _ (by decide) hv1 (by decide) h2
  have h0 : SplitSpec [(strC "paper_code", pc), (strC "Q1_A", pyStrip q1), (strC "Q1_B", pyStrip q2), (strC "Q1_C", pyStrip q3), (strC "Q1_D", pyStrip q4), (strC "Q1_E", pyStrip q5), (strC "Q2_A", pyStrip q6), (strC "Q2_B", pyStrip q7), (strC "Q2_C", pyStrip q8), (strC "Q2_D", pyStrip q9), (strC "Q2_E", pyStrip q10), (strC "Q3_A", pyStrip q11), (strC "Q3_B", pyStrip q12), (strC "Q3_C", pyStrip q13), (strC "Q3_D", pyStrip q14), (strC "Q3_E", pyStrip q15), (strC "Q4_A", pyStrip q16), (strC "Q4_B", pyStrip q17), (strC "Q4_C", pyStrip q18), (strC "Q4_D", pyStrip q19), (strC "Q4_E", pyStrip q20)] tRest0 (glue [(tseg0, pc), (tseg1, pyStrip q1), (tseg2, pyStrip q2), (tseg3, pyStrip q3), (tseg4, pyStrip q4), (tseg5, pyStrip q5), (tseg6, pyStrip q6), (tseg2, pyStrip q7), (tseg3, pyStrip q8), (tseg4, pyStrip q9), (tseg5, pyStrip q10), (tseg7, pyStrip q11), (tseg2, pyStrip q12), (tseg3, pyStrip q13), (tseg4, pyStrip q14), (tseg5, pyStrip q15), (tseg8, pyStrip q16), (tseg2, pyStrip q17), (tseg3, pyStrip q18), (tseg4, pyStrip q19), (tseg5, pyStrip q20)] tsegEnd) :=
    SplitSpec.cons (strC "paper_code") (pc) tseg0 tRest1 _ _ (by decide) hpc (by decide) h1
  have hsplit : SplitSpec (replacementPairs pc [q1, q2, q3, q4, q5, q6, q7, q8, q9, q10, q11, q12, q13, q14, q15, q16, q17, q18, q19, q20]) tRest0
      (glue (tmplSegs.zip (pc :: [pyStrip q1, pyStrip q2, pyStrip q3, pyStrip q4, pyStrip q5, pyStrip q6, pyStrip q7, pyStrip q8, pyStrip q9, pyStrip q10, pyStrip q11, pyStrip q12, pyStrip q13, pyStrip q14, pyStrip q15, pyStrip q16, pyStrip q17, pyStrip q18, pyStrip q19, pyStrip q20])) tsegEnd) := by
    rw [hpairs]
    exact h0
  show (replacementPairs pc [q1, q2, q3, q4, q5, q6, q7, q8, q9, q10, q11, q12, q13, q14, q15, q16, q17, q18, q19, q20]).foldl
    (fun doc kv => replaceAll (lbrace :: (kv.1 ++ [rbrace])) kv.2 doc)
    TEMPLATE_80_MARKS = _
  rw [template_split]
  have hres := foldl_replace_split (replacementPairs pc [q1, q2, q3, q4, q5, q6, q7, q8, q9, q10, q11, q12, q13, q14, q15, q16, q17, q18, q19, q20]) tRest0
    (glue (tmplSegs.zip (pc :: [pyStrip q1, pyStrip q2, pyStrip q3, pyStrip q4, pyStrip q5, pyStrip q6, pyStrip q7, pyStrip q8, pyStrip q9, pyStrip q10, pyStrip q11, pyStrip q12, pyStrip q13, pyStrip q14, pyStrip q15, pyStrip q16, pyStrip q17, pyStrip q18, pyStrip q19, pyStrip q20])) tsegEnd) [] hsplit (List.not_mem_nil lbrace)
  simpa using hres
theorem countWhile_le_length (f : Char → Bool) :
    ∀ l : List Char, countWhile f l ≤ l.length := by
  intro l
  induction l with
  | nil => exact Nat.le_refl 0
  | cons c rest ih =>
    simp only [countWhile, List.length_cons]
    by_cases hc : f c
    · simpa [hc] using ih
    · simp [hc]

theorem countWhile_append_lt (f : Char → Bool) :
    ∀ (u w : List Char), countWhile f u < u.length →
      countWhile f (u ++ w) = countWhile f u := by
  intro u
  induction u with
  | nil => intro w h; simp at h
  | cons c u2 ih =>
    intro w h
    simp only [countWhile, List.cons_append]
    by_cases hc : f c
    · simp only [countWhile, hc, if_true] at h ⊢
      have h2 : countWhile f u2 < u2.length := by
        simpa using Nat.lt_of_succ_lt_succ h
      exact congrArg (fun x => x + 1) (ih w h2)
    · simp [hc]

/-- A hit of the matcher is stable under extending the input on the right:
every consumption decision was made on an interior character. -/
theorem matchRun_append_hit (pat : Pat) :
    ∀ (u w : List Char) (n : Nat),
      matchRun pat u = .hit n → matchRun pat (u ++ w) = .hit n := by
  induction pat with
  | nil =>
    intro u w n h
    simp only [matchRun] at h ⊢
    exact h
  | cons e ps ih =>
    cases e with
    | lit s =>
      intro u w n h
      by_cases hp : s.isPrefixOf u = true
      · have hpre : s <+: u := List.isPrefixOf_iff_prefix.mp hp
        have hp2 : s.isPrefixOf (u ++ w) = true :=
          List.isPrefixOf_iff_prefix.mpr (hpre.trans (List.prefix_append u w))
        have hdrop : (u ++ w).drop s.length = u.drop s.length ++ w :=
          List.drop_append_of_le_length hpre.length_le
        simp only [matchRun, hp, if_true] at h
        simp only [matchRun, hp2, if_true, hdrop]
        cases hin : matchRun ps (u.drop s.length) with
        | hit m => rw [hin] at h; rw [ih _ w m hin]; exact h
        | failIn => rw [hin] at h; exact MRes.noConfusion h
        | failEnd => rw [hin] at h; exact MRes.noConfusion h
      · simp only [matchRun, hp, if_false, Bool.false_eq_true] at h
        by_cases hq : u.isPrefixOf s = true
        · rw [if_pos hq] at h; exact MRes.noConfusion h
        · rw [if_neg hq] at h; exact MRes.noConfusion h
    | star f =>
      intro u w n h
      simp only [matchRun] at h ⊢
      by_cases hk : countWhile f u = u.length
      · rw [if_pos hk] at h; exact MRes.noConfusion h
      · rw [if_neg hk] at h
        have hlt : countWhile f u < u.length :=
          Nat.lt_of_le_of_ne (countWhile_le_length f u) hk
        have hcw : countWhile f (u ++ w) = countWhile f u := countWhile_append_lt f u w hlt
        have hk2 : ¬ (countWhile f (u ++ w) = (u ++ w).length) := by
          rw [hcw, List.length_append]
          omega
        rw [if_neg hk2, hcw, List.drop_append_of_le_length (le_of_lt hlt)]
        cases hin : matchRun ps (u.drop (countWhile f u)) with
        | hit m => rw [hin] at h; rw [ih _ w m hin]; exact h
        | failIn => rw [hin] at h; exact MRes.noConfusion h
        | failEnd => rw [hin] at h; exact MRes.noConfusion h
    | plus1 f =>
      intro u w n h
      simp only [matchRun] at h ⊢
      by_cases h0 : countWhile f u = 0
      · rw [if_pos h0] at h
        by_cases he : u.isEmpty
        · rw [if_pos he] at h; exact MRes.noConfusion h
        · rw [if_neg he] at h; exact MRes.noConfusion h
      · rw [if_neg h0] at h
        by_cases hk : countWhile f u = u.length
        · rw [if_pos hk] at h; exact MRes.noConfusion h
        · rw [if_neg hk] at h
          have hlt : countWhile f u < u.length :=
            Nat.lt_of_le_of_ne (countWhile_le_length f u) hk
          have hcw : countWhile f (u ++ w) = countWhile f u := countWhile_append_lt f u w hlt
          have hk2 : ¬ (countWhile f u = (u ++ w).length) := by
            rw [List.length_append]
            omega
          rw [hcw, if_neg h0, if_neg hk2, List.drop_append_of_le_length (le_of_lt hlt)]
          cases hin : matchRun ps (u.drop (countWhile f u)) with
          | hit m => rw [hin] at h; rw [ih _ w m hin]; exact h
          | failIn => rw [hin] at h; exact MRes.noConfusion h
          | failEnd => rw [hin] at h; exact MRes.noConfusion h
    | one f =>
      intro u w n h
      cases u with
      | nil =>
        simp only [matchRun] at h
        exact MRes.noConfusion h
      | cons c u2 =>
        simp only [matchRun, List.cons_append] at h ⊢
        by_cases hc : f c = true
        · simp only [hc, if_true] at h ⊢
          cases hin : matchRun ps u2 with
          | hit m => rw [hin] at h; rw [ih _ w m hin]; exact h
          | failIn => rw [hin] at h; exact MRes.noConfusion h
          | failEnd => rw [hin] at h; exact MRes.noConfusion h
        · simp only [hc, if_false, Bool.false_eq_true] at h
          exact MRes.noConfusion h

/-- An interior mismatch is likewise stable under extension. -/
theorem matchRun_append_failIn (pat : Pat) :
    ∀ (u w : List Char),
      matchRun pat u = .failIn → matchRun pat (u ++ w) = .failIn := by
  induction pat with
  | nil =>
    intro u w h
    simp only [matchRun] at h
    exact MRes.noConfusion h
  | cons e ps ih =>
    cases e with
    | lit s =>
      intro u w h
      by_cases hp : s.isPrefixOf u = true
      · have hpre : s <+: u := List.isPrefixOf_iff_prefix.mp hp
        have hp2 : s.isPrefixOf (u ++ w) = true :=
          List.isPrefixOf_iff_prefix.mpr (hpre.trans (List.prefix_append u w))
        have hdrop : (u ++ w).drop s.length = u.drop s.length ++ w :=
          List.drop_append_of_le_length hpre.length_le
        simp only [matchRun, hp, if_true] at h
        simp only [matchRun, hp2, if_true, hdrop]
        cases hin : matchRun ps (u.drop s.length) with
        | hit m => rw [hin] at h; exact MRes.noConfusion h
        | failIn => rw [ih _ w hin]
        | failEnd => rw [hin] at h; exact MRes.noConfusion h
      · simp only [matchRun, hp, if_false, Bool.false_eq_true] at h
        by_cases hq : u.isPrefixOf s = true
        · rw [if_pos hq] at h; exact MRes.noConfusion h
        · have hnp : ¬ (s.isPrefixOf (u ++ w) = true) := by
            intro hcon
            have hcon2 : s <+: u ++ w := List.isPrefixOf_iff_prefix.mp hcon
            rcases List.prefix_or_prefix_of_prefix hcon2 (List.prefix_append u w) with hsu | hus
            · exact hp (List.isPrefixOf_iff_prefix.mpr hsu)
            · exact hq (List.isPrefixOf_iff_prefix.mpr hus)
          have hnq : ¬ ((u ++ w).isPrefixOf s = true) := by
            intro hcon
            have hcon2 : u ++ w <+: s := List.isPrefixOf_iff_prefix.mp hcon
            exact hq (List.isPrefixOf_iff_prefix.mpr ((List.prefix_append u w).trans hcon2))
          simp only [matchRun, if_neg hnp, if_neg hnq]
    | star f =>
      intro u w h
      simp only [matchRun] at h ⊢
      by_cases hk : countWhile f u = u.length
      · rw [if_pos hk] at h; exact MRes.noConfusion h
      · rw [if_neg hk] at h
        have hlt : countWhile f u < u.length :=
          Nat.lt_of_le_of_ne (countWhile_le_length f u) hk
        have hcw : countWhile f (u ++ w) = countWhile f u := countWhile_append_lt f u w hlt
        have hk2 : ¬ (countWhile f (u ++ w) = (u ++ w).length) := by
          rw [hcw, List.length_append]
          omega
        rw [if_neg hk2, hcw, List.drop_append_of_le_length (le_of_lt hlt)]
        cases hin : matchRun ps (u.drop (countWhile f u)) with
        | hit m => rw [hin] at h; exact MRes.noConfusion h
        | failIn => rw [ih _ w hin]
        | failEnd => rw [hin] at h; exact MRes.noConfusion h
    | plus1 f =>
      intro u w h
      simp only [matchRun] at h ⊢
      by_cases h0 : countWhile f u = 0
      · rw [if_pos h0] at h
        cases u with
        | nil => simp only [List.isEmpty_nil, if_true] at h; exact MRes.noConfusion h
        | cons c u2 =>
          simp only [List.isEmpty_cons, Bool.false_eq_true, if_false] at h
          have hfc : ¬ (f c = true) := by
            intro hfc
            simp [countWhile, hfc] at h0
          have hcw0 : countWhile f ((c :: u2) ++ w) = 0 := by
            simp [countWhile, hfc]
          rw [hcw0, if_pos rfl]
          simp
      · rw [if_neg h0] at h
        by_cases hk : countWhile f u = u.length
        · rw [if_pos hk] at h; exact MRes.noConfusion h
        · rw [if_neg hk] at h
          have hlt : countWhile f u < u.length :=
            Nat.lt_of_le_of_ne (countWhile_le_length f u) hk
          have hcw : countWhile f (u ++ w) = countWhile f u := countWhile_append_lt f u w hlt
          have hk2 : ¬ (countWhile f u = (u ++ w).length) := by
            rw [List.length_append]
            omega
          rw [hcw, if_neg h0, if_neg hk2, List.drop_append_of_le_length (le_of_lt hlt)]
          cases hin : matchRun ps (u.drop (countWhile f u)) with
          | hit m => rw [hin] at h; exact MRes.noConfusion h
          | failIn => rw [ih _ w hin]
          | failEnd => rw [hin] at h; exact MRes.noConfusion h
    | one f =>
      intro u w h
      cases u with
      | nil =>
        simp only [matchRun] at h
        exact MRes.noConfusion h
      | cons c u2 =>
        simp only [matchRun, List.cons_append] at h ⊢
        by_cases hc : f c = true
        · simp only [hc, if_true] at h ⊢
          cases hin : matchRun ps u2 with
          | hit m => rw [hin] at h; exact MRes.noConfusion h
          | failIn => rw [ih _ w hin]
          | failEnd => rw [hin] at h; exact MRes.noConfusion h
        · simp only [hc, if_false, Bool.false_eq_true] at h ⊢

theorem occursB_append_right (pat : Pat) :
    ∀ (x rest : List Char), occursB pat rest = true → occursB pat (x ++ rest) = true := by
  intro x
  induction x with
  | nil => intro rest h; exact h
  | cons c x2 ih =>
    intro rest h
    show occursB pat (c :: (x2 ++ rest)) = true
    simp only [occursB, Bool.or_eq_true]
    exact Or.inr (ih rest h)

theorem occursB_append_left (pat : Pat) :
    ∀ (S rest : List Char), occursB pat S = true → occursB pat (S ++ rest) = true := by
  intro S
  induction S with
  | nil =>
    intro rest h
    simp only [occursB] at h
    cases hm : matchRun pat [] with
    | hit n =>
      have h2 : matchRun pat rest = .hit n := matchRun_append_hit pat [] rest n hm
      cases rest with
      | nil => exact h
      | cons c r2 =>
        show occursB pat (c :: r2) = true
        simp only [occursB, Bool.or_eq_true]
        left
        rw [h2]
        rfl
    | failIn => rw [hm] at h; simp [isHit] at h
    | failEnd => rw [hm] at h; simp [isHit] at h
  | cons c S2 ih =>
    intro rest h
    simp only [occursB, Bool.or_eq_true] at h
    show occursB pat (c :: (S2 ++ rest)) = true
    simp only [occursB, Bool.or_eq_true]
    rcases h with h1 | h2
    · left
      cases hm : matchRun pat (c :: S2) with
      | hit n =>
        have h3 := matchRun_append_hit pat (c :: S2) rest n hm
        rw [show ((c :: S2) ++ rest) = c :: (S2 ++ rest) from rfl] at h3
        rw [h3]
        rfl
      | failIn => rw [hm] at h1; simp [isHit] at h1
      | failEnd => rw [hm] at h1; simp [isHit] at h1
    · exact Or.inr (ih rest h2)

theorem occursB_glue (pat : Pat) :
    ∀ (pieces : List (List Char × List Char)) (final : List Char),
      (∃ p ∈ pieces, occursB pat p.1 = true) →
      occursB pat (glue pieces final) = true := by
  intro pieces
  induction pieces with
  | nil =>
    intro final h
    obtain ⟨p, hp, _⟩ := h
    cases hp
  | cons pv rest ih =>
    intro final h
    obtain ⟨p, hp, hocc⟩ := h
    cases pv with
    | mk S v =>
      show occursB pat (S ++ (v ++ glue rest final)) = true
      rcases List.mem_cons.mp hp with he | hmem
      · subst he
        exact occursB_append_left pat S _ hocc
      · exact occursB_append_right pat S _
          (occursB_append_right pat v _ (ih final ⟨p, hmem, hocc⟩))

theorem occursB_glue_final (pat : Pat) :
    ∀ (pieces : List (List Char × List Char)) (final : List Char),
      occursB pat final = true → occursB pat (glue pieces final) = true := by
  intro pieces
  induction pieces with
  | nil => intro final h; exact h
  | cons pv rest ih =>
    intro final h
    cases pv with
    | mk S v =>
      show occursB pat (S ++ (v ++ glue rest final)) = true
      exact occursB_append_right pat S _ (occursB_append_right pat v _ (ih final h))

/-- A pattern whose first element is a literal starting with `{` cannot occur
in a brace-free document. -/
theorem occursB_no_lbrace (t : List Char) (ps : Pat) :
    ∀ l : List Char, lbrace ∉ l → occursB (.lit (lbrace :: t) :: ps) l = false := by
  intro l
  induction l with
  | nil => intro _; rfl
  | cons c rest ih =>
    intro hmem
    have hc : (lbrace == c) = false :=
      beq_eq_false_iff_ne.mpr (fun h => hmem (h ▸ List.mem_cons_self c rest))
    have hc2 : (c == lbrace) = false :=
      beq_eq_false_iff_ne.mpr (fun h => hmem (by rw [← h]; exact List.mem_cons_self c rest))
    show (isHit (matchRun (.lit (lbrace :: t) :: ps) (c :: rest)) ||
      occursB (.lit (lbrace :: t) :: ps) rest) = false
    rw [ih (fun hm => hmem (List.mem_cons_of_mem c hm))]
    simp only [Bool.or_false]
    simp only [matchRun, List.isPrefixOf, hc, hc2, Bool.false_and, Bool.false_eq_true,
      if_false, isHit]

theorem glue_no_mem {c : Char} :
    ∀ (pieces : List (List Char × List Char)) (final : List Char),
      (∀ p ∈ pieces, c ∉ p.1 ∧ c ∉ p.2) → c ∉ final → c ∉ glue pieces final := by
  intro pieces
  induction pieces with
  | nil => intro final _ hf; exact hf
  | cons pv rest ih =>
    intro final hp hf
    cases pv with
    | mk S v =>
      show c ∉ S ++ (v ++ glue rest final)
      intro hmem
      rcases List.mem_append.mp hmem with h | h
      · exact (hp (S, v) (List.mem_cons_self _ _)).1 h
      · rcases List.mem_append.mp h with h2 | h2
        · exact (hp (S, v) (List.mem_cons_self _ _)).2 h2
        · exact ih final (fun p hm => hp p (List.mem_cons_of_mem _ hm)) hf h2

theorem cmScan_nl_free (pat : Pat) :
    ∀ (v rest : List Char), ('\n' : Char) ∉ v →
      cmScan pat (v ++ rest) false 0 = cmScan pat rest false 0 := by
  intro v
  induction v with
  | nil => intro rest _; rfl
  | cons c v2 ih =>
    intro rest hmem
    have hc : (c == '\n') = false :=
      beq_eq_false_iff_ne.mpr (fun h => hmem (h ▸ List.mem_cons_self c v2))
    show cmScan pat (c :: (v2 ++ rest)) false 0 = _
    simp only [cmScan, Nat.lt_irrefl, if_false, Bool.false_eq_true, hc]
    exact ih rest (fun hm => hmem (List.mem_cons_of_mem c hm))

theorem cmSegScan_sound (pat : Pat) :
    ∀ (S : List Char) (b : Bool) (skip k : Nat) (b2 : Bool) (skip2 : Nat),
      cmSegScan pat S b skip = some (k, b2, skip2) →
      ∀ rest, cmScan pat (S ++ rest) b skip = k + cmScan pat rest b2 skip2 := by
  intro S
  induction S with
  | nil =>
    intro b skip k b2 skip2 h rest
    simp only [cmSegScan, Option.some.injEq, Prod.mk.injEq] at h
    obtain ⟨h1, h2, h3⟩ := h
    subst h1; subst h2; subst h3
    simp
  | cons c S2 ih =>
    intro b skip k b2 skip2 h rest
    show cmScan pat (c :: (S2 ++ rest)) b skip = _
    by_cases hs : 0 < skip
    · simp only [cmSegScan, if_pos hs] at h
      simp only [cmScan, if_pos hs]
      exact ih (c == '\n') (skip - 1) k b2 skip2 h rest
    · cases b with
      | false =>
        simp only [cmSegScan, if_neg hs, Bool.false_eq_true, if_false] at h
        simp only [cmScan, if_neg hs, Bool.false_eq_true, if_false]
        exact ih (c == '\n') 0 k b2 skip2 h rest
      | true =>
        simp only [cmSegScan, if_neg hs, if_true] at h
        simp only [cmScan, if_neg hs, if_true]
        cases hm : matchRun pat (c :: S2) with
        | hit n =>
          have hm2 : matchRun pat (c :: (S2 ++ rest)) = .hit n := by
            have h3 := matchRun_append_hit pat (c :: S2) rest n hm
            rw [show ((c :: S2) ++ rest) = c :: (S2 ++ rest) from rfl] at h3
            exact h3
          rw [hm] at h
          rw [hm2]
          obtain ⟨⟨k1, b1, skip1⟩, hrec, heq⟩ := Option.map_eq_some'.mp h
          simp only [Prod.mk.injEq] at heq
          obtain ⟨hk, hb, hsk⟩ := heq
          subst hk; subst hb; subst hsk
          show 1 + cmScan pat (S2 ++ rest) (c == '\n') (max n 1 - 1) =
            k1 + 1 + cmScan pat rest b1 skip1
          rw [ih (c == '\n') (max n 1 - 1) k1 b1 skip1 hrec rest]
          omega
        | failIn =>
          have hm2 : matchRun pat (c :: (S2 ++ rest)) = .failIn := by
            have h3 := matchRun_append_failIn pat (c :: S2) rest hm
            rw [show ((c :: S2) ++ rest) = c :: (S2 ++ rest) from rfl] at h3
            exact h3
          rw [hm] at h
          rw [hm2]
          exact ih (c == '\n') 0 k b2 skip2 h rest
        | failEnd =>
          rw [hm] at h
          cases h

theorem cmScan_glue (pat : Pat) :
    ∀ (pieces : List (List Char × List Char)) (final : List Char) (b : Bool) (k : Nat) (b2 : Bool),
      (∀ p ∈ pieces, ('\n' : Char) ∉ p.2) →
      segCounts pat (pieces.map Prod.fst) b = some (k, b2) →
      cmScan pat (glue pieces final) b 0 = k + cmScan pat final b2 0 := by
  intro pieces
  induction pieces with
  | nil =>
    intro final b k b2 _ h
    simp only [List.map_nil, segCounts, Option.some.injEq, Prod.mk.injEq] at h
    obtain ⟨h1, h2⟩ := h
    subst h1; subst h2
    simp [glue]
  | cons pv rest ih =>
    intro final b k b2 hnl h
    cases pv with
    | mk S v =>
      simp only [List.map_cons, segCounts] at h
      cases hseg : cmSegScan pat S b 0 with
      | none => rw [hseg] at h; cases h
      | some trip =>
        obtain ⟨k1, b1, skip1⟩ := trip
        rw [hseg] at h
        cases b1 with
        | true => simp at h
        | false =>
          cases skip1 with
          | succ m => simp at h
          | zero =>
            obtain ⟨⟨k2, b3⟩, hrec, heq⟩ := Option.map_eq_some'.mp h
            simp only [Prod.mk.injEq] at heq
            obtain ⟨hk, hb⟩ := heq
            subst hk; subst hb
            show cmScan pat (S ++ (v ++ glue rest final)) b 0 = _
            rw [cmSegScan_sound pat S b 0 k1 false 0 hseg (v ++ glue rest final)]
            rw [cmScan_nl_free pat v (glue rest final)
              ((hnl (S, v) (List.mem_cons_self _ _)))]
            rw [ih final false k2 b3 (fun p hm => hnl p (List.mem_cons_of_mem _ hm)) hrec]
            omega

/-- Stripping only removes characters. -/
theorem mem_pyStrip {c : Char} {l : List Char} (h : c ∈ pyStrip l) : c ∈ l := by
  unfold pyStrip at h
  rw [List.mem_reverse] at h
  have h2 := (List.dropWhile_suffix isPySpace).subset h
  rw [List.mem_reverse] at h2
  exact (List.dropWhile_suffix isPySpace).subset h2
/-- C4: populating the template with a paper code and exactly 20 single-line,
brace-free questions and then validating yields every check true and overall
validity true, with no unresolved placeholder left. -/
theorem create_validate_roundtrip (pc q1 q2 q3 q4 q5 q6 q7 q8 q9 q10 q11 q12 q13 q14 q15 q16 q17 q18 q19 q20 : List Char)
    (hpc : ('\n' : Char) ∉ pc ∧ lbrace ∉ pc ∧ rbrace ∉ pc)
    (hq1 : q1 ≠ [] ∧ ('\n' : Char) ∉ q1 ∧ lbrace ∉ q1 ∧ rbrace ∉ q1)
    (hq2 : q2 ≠ [] ∧ ('\n' : Char) ∉ q2 ∧ lbrace ∉ q2 ∧ rbrace ∉ q2)
    (hq3 : q3 ≠ [] ∧ ('\n' : Char) ∉ q3 ∧ lbrace ∉ q3 ∧ rbrace ∉ q3)
    (hq4 : q4 ≠ [] ∧ ('\n' : Char) ∉ q4 ∧ lbrace ∉ q4 ∧ rbrace ∉ q4)
    (hq5 : q5 ≠ [] ∧ ('\n' : Char) ∉ q5 ∧ lbrace ∉ q5 ∧ rbrace ∉ q5)
    (hq6 : q6 ≠ [] ∧ ('\n' : Char) ∉ q6 ∧ lbrace ∉ q6 ∧ rbrace ∉ q6)
    (hq7 : q7 ≠ [] ∧ ('\n' : Char) ∉ q7 ∧ lbrace ∉ q7 ∧ rbrace ∉ q7)
    (hq8 : q8 ≠ [] ∧ ('\n' : Char) ∉ q8 ∧ lbrace ∉ q8 ∧ rbrace ∉ q8)
    (hq9 : q9 ≠ [] ∧ ('\n' : Char) ∉ q9 ∧ lbrace ∉ q9 ∧ rbrace ∉ q9)
    (hq10 : q10 ≠ [] ∧ ('\n' : Char) ∉ q10 ∧ lbrace ∉ q10 ∧ rbrace ∉ q10)
    (hq11 : q11 ≠ [] ∧ ('\n' : Char) ∉ q11 ∧ lbrace ∉ q11 ∧ rbrace ∉ q11)
    (hq12 : q12 ≠ [] ∧ ('\n' : Char) ∉ q12 ∧ lbrace ∉ q12 ∧ rbrace ∉ q12)
    (hq13 : q13 ≠ [] ∧ ('\n' : Char) ∉ q13 ∧ lbrace ∉ q13 ∧ rbrace ∉ q13)
    (hq14 : q14 ≠ [] ∧ ('\n' : Char) ∉ q14 ∧ lbrace ∉ q14 ∧ rbrace ∉ q14)
    (hq15 : q15 ≠ [] ∧ ('\n' : Char) ∉ q15 ∧ lbrace ∉ q15 ∧ rbrace ∉ q15)
    (hq16 : q16 ≠ [] ∧ ('\n' : Char) ∉ q16 ∧ lbrace ∉ q16 ∧ rbrace ∉ q16)
    (hq17 : q17 ≠ [] ∧ ('\n' : Char) ∉ q17 ∧ lbrace ∉ q17 ∧ rbrace ∉ q17)
    (hq18 : q18 ≠ [] ∧ ('\n' : Char) ∉ q18 ∧ lbrace ∉ q18 ∧ rbrace ∉ q18)
    (hq19 : q19 ≠ [] ∧ ('\n' : Char) ∉ q19 ∧ lbrace ∉ q19 ∧ rbrace ∉ q19)
    (hq20 : q20 ≠ [] ∧ ('\n' : Char) ∉ q20 ∧ lbrace ∉ q20 ∧ rbrace ∉ q20)
    :
    create_question_paper pc [q1, q2, q3, q4, q5, q6, q7, q8, q9, q10, q11, q12, q13, q14, q15, q16, q17, q18, q19, q20] = some (fillTemplate pc [q1, q2, q3, q4, q5, q6, q7, q8, q9, q10, q11, q12, q13, q14, q15, q16, q17, q18, q19, q20]) ∧
    validate_question_paper_format (fillTemplate pc [q1, q2, q3, q4, q5, q6, q7, q8, q9, q10, q11, q12, q13, q14, q15, q16, q17, q18, q19, q20]) = (allChecksTrue, true) := by
  have hv1 : lbrace ∉ pyStrip q1 := fun hm => hq1.2.2.1 (mem_pyStrip hm)
  have hv2 : lbrace ∉ pyStrip q2 := fun hm => hq2.2.2.1 (mem_pyStrip hm)
  have hv3 : lbrace ∉ pyStrip q3 := fun hm => hq3.2.2.1 (mem_pyStrip hm)
  have hv4 : lbrace ∉ pyStrip q4 := fun hm => hq4.2.2.1 (mem_pyStrip hm)
  have hv5 : lbrace ∉ pyStrip q5 := fun hm => hq5.2.2.1 (mem_pyStrip hm)
  have hv6 : lbrace ∉ pyStrip q6 := fun hm => hq6.2.2.1 (mem_pyStrip hm)
  have hv7 : lbrace ∉ pyStrip q7 := fun hm => hq7.2.2.1 (mem_pyStrip hm)
  have hv8 : lbrace ∉ pyStrip q8 := fun hm => hq8.2.2.1 (mem_pyStrip hm)
  have hv9 : lbrace ∉ pyStrip q9 := fun hm => hq9.2.2.1 (mem_pyStrip hm)
  have hv10 : lbrace ∉ pyStrip q10 := fun hm => hq10.2.2.1 (mem_pyStrip hm)
  have hv11 : lbrace ∉ pyStrip q11 := fun hm => hq11.2.2.1 (mem_pyStrip hm)
  have hv12 : lbrace ∉ pyStrip q12 := fun hm => hq12.2.2.1 (mem_pyStrip hm)
  have hv13 : lbrace ∉ pyStrip q13 := fun hm => hq13.2.2.1 (mem_pyStrip hm)
  have hv14 : lbrace ∉ pyStrip q14 := fun hm => hq14.2.2.1 (mem_pyStrip hm)
  have hv15 : lbrace ∉ pyStrip q15 := fun hm => hq15.2.2.1 (mem_pyStrip hm)
  have hv16 : lbrace ∉ pyStrip q16 := fun hm => hq16.2.2.1 (mem_pyStrip hm)
  have hv17 : lbrace ∉ pyStrip q17 := fun hm => hq17.2.2.1 (mem_pyStrip hm)
  have hv18 : lbrace ∉ pyStrip q18 := fun hm => hq18.2.2.1 (mem_pyStrip hm)
  have hv19 : lbrace ∉ pyStrip q19 := fun hm => hq19.2.2.1 (mem_pyStrip hm)
  have hv20 : lbrace ∉ pyStrip q20 := fun hm => hq20.2.2.1 (mem_pyStrip hm)
  have hnn1 : ('\n' : Char) ∉ pyStrip q1 := fun hm => hq1.2.1 (mem_pyStrip hm)
  have hnn2 : ('\n' : Char) ∉ pyStrip q2 := fun hm => hq2.2.1 (mem_pyStrip hm)
  have hnn3 : ('\n' : Char) ∉ pyStrip q3 := fun hm => hq3.2.1 (mem_pyStrip hm)
  have hnn4 : ('\n' : Char) ∉ pyStrip q4 := fun hm => hq4.2.1 (mem_pyStrip hm)
  have hnn5 : ('\n' : Char) ∉ pyStrip q5 := fun hm => hq5.2.1 (mem_pyStrip hm)
  have hnn6 : ('\n' : Char) ∉ pyStrip q6 := fun hm => hq6.2.1 (mem_pyStrip hm)
  have hnn7 : ('\n' : Char) ∉ pyStrip q7 := fun hm => hq7.2.1 (mem_pyStrip hm)
  have hnn8 : ('\n' : Char) ∉ pyStrip q8 := fun hm => hq8.2.1 (mem_pyStrip hm)
  have hnn9 : ('\n' : Char) ∉ pyStrip q9 := fun hm => hq9.2.1 (mem_pyStrip hm)
  have hnn10 : ('\n' : Char) ∉ pyStrip q10 := fun hm => hq10.2.1 (mem_pyStrip hm)
  have hnn11 : ('\n' : Char) ∉ pyStrip q11 := fun hm => hq11.2.1 (mem_pyStrip hm)
  have hnn12 : ('\n' : Char) ∉ pyStrip q12 := fun hm => hq12.2.1 (mem_pyStrip hm)
  have hnn13 : ('\n' : Char) ∉ pyStrip q13 := fun hm => hq13.2.1 (mem_pyStrip hm)
  have hnn14 : ('\n' : Char) ∉ pyStrip q14 := fun hm => hq14.2.1 (mem_pyStrip hm)
  have hnn15 : ('\n' : Char) ∉ pyStrip q15 := fun hm => hq15.2.1 (mem_pyStrip hm)
  have hnn16 : ('\n' : Char) ∉ pyStrip q16 := fun hm => hq16.2.1 (mem_pyStrip hm)
  have hnn17 : ('\n' : Char) ∉ pyStrip q17 := fun hm => hq17.2.1 (mem_pyStrip hm)
  have hnn18 : ('\n' : Char) ∉ pyStrip q18 := fun hm => hq18.2.1 (mem_pyStrip hm)
  have hnn19 : ('\n' : Char) ∉ pyStrip q19 := fun hm => hq19.2.1 (mem_pyStrip hm)
  have hnn20 : ('\n' : Char) ∉ pyStrip q20 := fun hm => hq20.2.1 (mem_pyStrip hm)
  have hshape : fillTemplate pc [q1, q2, q3, q4, q5, q6, q7, q8, q9, q10, q11, q12, q13, q14, q15, q16, q17, q18, q19, q20] = glue (tmplSegs.zip (pc :: [pyStrip q1, pyStrip q2, pyStrip q3, pyStrip q4, pyStrip q5, pyStrip q6, pyStrip q7, pyStrip q8, pyStrip q9, pyStrip q10, pyStrip q11, pyStrip q12, pyStrip q13, pyStrip q14, pyStrip q15, pyStrip q16, pyStrip q17, pyStrip q18, pyStrip q19, pyStrip q20])) tsegEnd :=
    fillTemplate_shape pc q1 q2 q3 q4 q5 q6 q7 q8 q9 q10 q11 q12 q13 q14 q15 q16 q17 q18 q19 q20 hpc.2.1 hv1 hv2 hv3 hv4 hv5 hv6 hv7 hv8 hv9 hv10 hv11 hv12 hv13 hv14 hv15 hv16 hv17 hv18 hv19 hv20
  have hprops : ∀ p ∈ (tmplSegs.zip (pc :: [pyStrip q1, pyStrip q2, pyStrip q3, pyStrip q4, pyStrip q5, pyStrip q6, pyStrip q7, pyStrip q8, pyStrip q9, pyStrip q10, pyStrip q11, pyStrip q12, pyStrip q13, pyStrip q14, pyStrip q15, pyStrip q16, pyStrip q17, pyStrip q18, pyStrip q19, pyStrip q20])),
      (('\n' : Char) ∉ p.2 ∧ lbrace ∉ p.1 ∧ lbrace ∉ p.2) := by
    intro p hp
    rcases List.mem_cons.mp hp with he | hp
    · subst he
      exact ⟨hpc.1, (by decide : lbrace ∉ tseg0), hpc.2.1⟩
    rcases List.mem_cons.mp hp with he | hp
    · subst he
      exact ⟨hnn1, (by decide : lbrace ∉ tseg1), hv1⟩
    rcases List.mem_cons.mp hp with he | hp
    · subst he
      exact ⟨hnn2, (by decide : lbrace ∉ tseg2), hv2⟩
    rcases List.mem_cons.mp hp with he | hp
    · subst he
      exact ⟨hnn3, (by decide : lbrace ∉ tseg3), hv3⟩
    rcases List.mem_cons.mp hp with he | hp
    · subst he
      exact ⟨hnn4, (by decide : lbrace ∉ tseg4), hv4⟩
    rcases List.mem_cons.mp hp with he | hp
    · subst he
      exact ⟨hnn5, (by decide : lbrace ∉ tseg5), hv5⟩
    rcases List.mem_cons.mp hp with he | hp
    · subst he
      exact ⟨hnn6, (by decide : lbrace ∉ tseg6), hv6⟩
    rcases List.mem_cons.mp hp with he | hp
    · subst he
      exact ⟨hnn7, (by decide : lbrace ∉ tseg2), hv7⟩
    rcases List.mem_cons.mp hp with he | hp
    · subst he
      exact ⟨hnn8, (by decide : lbrace ∉ tseg3), hv8⟩
    rcases List.mem_cons.mp hp with he | hp
    · subst he
      exact ⟨hnn9, (by decide : lbrace ∉ tseg4), hv9⟩
    rcases List.mem_cons.mp hp with he | hp
    · subst he
      exact ⟨hnn10, (by decide : lbrace ∉ tseg5), hv10⟩
    rcases List.mem_cons.mp hp with he | hp
    · subst he
      exact ⟨hnn11, (by decide : lbrace ∉ tseg7), hv11⟩
    rcases List.mem_cons.mp hp with he | hp
    · subst he
      exact ⟨hnn12, (by decide : lbrace ∉ tseg2), hv12⟩
    rcases List.mem_cons.mp hp with he | hp
    · subst he
      exact ⟨hnn13, (by decide : lbrace ∉ tseg3), hv13⟩
    rcases List.mem_cons.mp hp with he | hp
    · subst he
      exact ⟨hnn14, (by decide : lbrace ∉ tseg4), hv14⟩
    rcases List.mem_cons.mp hp with he | hp
    · subst he
      exact ⟨hnn15, (by decide : lbrace ∉ tseg5), hv15⟩
    rcases List.mem_cons.mp hp with he | hp
    · subst he
      exact ⟨hnn16, (by decide : lbrace ∉ tseg8), hv16⟩
    rcases List.mem_cons.mp hp with he | hp
    · subst he
      exact ⟨hnn17, (by decide : lbrace ∉ tseg2), hv17⟩
    rcases List.mem_cons.mp hp with he | hp
    · subst he
      exact ⟨hnn18, (by decide : lbrace ∉ tseg3), hv18⟩
    rcases List.mem_cons.mp hp with he | hp
    · subst he
      exact ⟨hnn19, (by decide : lbrace ∉ tseg4), hv19⟩
    rcases List.mem_cons.mp hp with he | hp
    · subst he
      exact ⟨hnn20, (by decide : lbrace ∉ tseg5), hv20⟩
    cases hp
  have hnl : ∀ p ∈ (tmplSegs.zip (pc :: [pyStrip q1, pyStrip q2, pyStrip q3, pyStrip q4, pyStrip q5, pyStrip q6, pyStrip q7, pyStrip q8, pyStrip q9, pyStrip q10, pyStrip q11, pyStrip q12, pyStrip q13, pyStrip q14, pyStrip q15, pyStrip q16, pyStrip q17, pyStrip q18, pyStrip q19, pyStrip q20])), ('\n' : Char) ∉ p.2 :=
    fun p hp => (hprops p hp).1
  have hm4 : cmScan mainQPat (glue (tmplSegs.zip (pc :: [pyStrip q1, pyStrip q2, pyStrip q3, pyStrip q4, pyStrip q5, pyStrip q6, pyStrip q7, pyStrip q8, pyStrip q9, pyStrip q10, pyStrip q11, pyStrip q12, pyStrip q13, pyStrip q14, pyStrip q15, pyStrip q16, pyStrip q17, pyStrip q18, pyStrip q19, pyStrip q20])) tsegEnd) true 0 = 4 := by
    rw [cmScan_glue mainQPat (tmplSegs.zip (pc :: [pyStrip q1, pyStrip q2, pyStrip q3, pyStrip q4, pyStrip q5, pyStrip q6, pyStrip q7, pyStrip q8, pyStrip q9, pyStrip q10, pyStrip q11, pyStrip q12, pyStrip q13, pyStrip q14, pyStrip q15, pyStrip q16, pyStrip q17, pyStrip q18, pyStrip q19, pyStrip q20])) tsegEnd true 4 false hnl (by decide : segCounts mainQPat tmplSegs true = some (4, false))]
    decide
  have hm20 : cmScan subQPat (glue (tmplSegs.zip (pc :: [pyStrip q1, pyStrip q2, pyStrip q3, pyStrip q4, pyStrip q5, pyStrip q6, pyStrip q7, pyStrip q8, pyStrip q9, pyStrip q10, pyStrip q11, pyStrip q12, pyStrip q13, pyStrip q14, pyStrip q15, pyStrip q16, pyStrip q17, pyStrip q18, pyStrip q19, pyStrip q20])) tsegEnd) true 0 = 20 := by
    rw [cmScan_glue subQPat (tmplSegs.zip (pc :: [pyStrip q1, pyStrip q2, pyStrip q3, pyStrip q4, pyStrip q5, pyStrip q6, pyStrip q7, pyStrip q8, pyStrip q9, pyStrip q10, pyStrip q11, pyStrip q12, pyStrip q13, pyStrip q14, pyStrip q15, pyStrip q16, pyStrip q17, pyStrip q18, pyStrip q19, pyStrip q20])) tsegEnd true 20 false hnl (by decide : segCounts subQPat tmplSegs true = some (20, false))]
    decide
  have hmarks : occursB marksPat (glue (tmplSegs.zip (pc :: [pyStrip q1, pyStrip q2, pyStrip q3, pyStrip q4, pyStrip q5, pyStrip q6, pyStrip q7, pyStrip q8, pyStrip q9, pyStrip q10, pyStrip q11, pyStrip q12, pyStrip q13, pyStrip q14, pyStrip q15, pyStrip q16, pyStrip q17, pyStrip q18, pyStrip q19, pyStrip q20])) tsegEnd) = true :=
    occursB_glue marksPat (tmplSegs.zip (pc :: [pyStrip q1, pyStrip q2, pyStrip q3, pyStrip q4, pyStrip q5, pyStrip q6, pyStrip q7, pyStrip q8, pyStrip q9, pyStrip q10, pyStrip q11, pyStrip q12, pyStrip q13, pyStrip q14, pyStrip q15, pyStrip q16, pyStrip q17, pyStrip q18, pyStrip q19, pyStrip q20])) tsegEnd
      ⟨(tseg1, pyStrip q1), List.get?_mem (show ((tmplSegs.zip (pc :: [pyStrip q1, pyStrip q2, pyStrip q3, pyStrip q4, pyStrip q5, pyStrip q6, pyStrip q7, pyStrip q8, pyStrip q9, pyStrip q10, pyStrip q11, pyStrip q12, pyStrip q13, pyStrip q14, pyStrip q15, pyStrip q16, pyStrip q17, pyStrip q18, pyStrip q19, pyStrip q20]))).get? 1 = some (tseg1, pyStrip q1) from rfl), (by decide : occursB marksPat tseg1 = true)⟩
  have htime : occursB timePat (glue (tmplSegs.zip (pc :: [pyStrip q1, pyStrip q2, pyStrip q3, pyStrip q4, pyStrip q5, pyStrip q6, pyStrip q7, pyStrip q8, pyStrip q9, pyStrip q10, pyStrip q11, pyStrip q12, pyStrip q13, pyStrip q14, pyStrip q15, pyStrip q16, pyStrip q17, pyStrip q18, pyStrip q19, pyStrip q20])) tsegEnd) = true :=
    occursB_glue timePat (tmplSegs.zip (pc :: [pyStrip q1, pyStrip q2, pyStrip q3, pyStrip q4, pyStrip q5, pyStrip q6, pyStrip q7, pyStrip q8, pyStrip q9, pyStrip q10, pyStrip q11, pyStrip q12, pyStrip q13, pyStrip q14, pyStrip q15, pyStrip q16, pyStrip q17, pyStrip q18, pyStrip q19, pyStrip q20])) tsegEnd
      ⟨(tseg1, pyStrip q1), List.get?_mem (show ((tmplSegs.zip (pc :: [pyStrip q1, pyStrip q2, pyStrip q3, pyStrip q4, pyStrip q5, pyStrip q6, pyStrip q7, pyStrip q8, pyStrip q9, pyStrip q10, pyStrip q11, pyStrip q12, pyStrip q13, pyStrip q14, pyStrip q15, pyStrip q16, pyStrip q17, pyStrip q18, pyStrip q19, pyStrip q20]))).get? 1 = some (tseg1, pyStrip q1) from rfl), (by decide : occursB timePat tseg1 = true)⟩
  have hinstr : occursB instrPat (glue (tmplSegs.zip (pc :: [pyStrip q1, pyStrip q2, pyStrip q3, pyStrip q4, pyStrip q5, pyStrip q6, pyStrip q7, pyStrip q8, pyStrip q9, pyStrip q10, pyStrip q11, pyStrip q12, pyStrip q13, pyStrip q14, pyStrip q15, pyStrip q16, pyStrip q17, pyStrip q18, pyStrip q19, pyStrip q20])) tsegEnd) = true :=
    occursB_glue instrPat (tmplSegs.zip (pc :: [pyStrip q1, pyStrip q2, pyStrip q3, pyStrip q4, pyStrip q5, pyStrip q6, pyStrip q7, pyStrip q8, pyStrip q9, pyStrip q10, pyStrip q11, pyStrip q12, pyStrip q13, pyStrip q14, pyStrip q15, pyStrip q16, pyStrip q17, pyStrip q18, pyStrip q19, pyStrip q20])) tsegEnd
      ⟨(tseg1, pyStrip q1), List.get?_mem (show ((tmplSegs.zip (pc :: [pyStrip q1, pyStrip q2, pyStrip q3, pyStrip q4, pyStrip q5, pyStrip q6, pyStrip q7, pyStrip q8, pyStrip q9, pyStrip q10, pyStrip q11, pyStrip q12, pyStrip q13, pyStrip q14, pyStrip q15, pyStrip q16, pyStrip q17, pyStrip q18, pyStrip q19, pyStrip q20]))).get? 1 = some (tseg1, pyStrip q1) from rfl), (by decide : occursB instrPat tseg1 = true)⟩
  have hpto : occursB ptoPat (glue (tmplSegs.zip (pc :: [pyStrip q1, pyStrip q2, pyStrip q3, pyStrip q4, pyStrip q5, pyStrip q6, pyStrip q7, pyStrip q8, pyStrip q9, pyStrip q10, pyStrip q11, pyStrip q12, pyStrip q13, pyStrip q14, pyStrip q15, pyStrip q16, pyStrip q17, pyStrip q18, pyStrip q19, pyStrip q20])) tsegEnd) = true :=
    occursB_glue ptoPat (tmplSegs.zip (pc :: [pyStrip q1, pyStrip q2, pyStrip q3, pyStrip q4, pyStrip q5, pyStrip q6, pyStrip q7, pyStrip q8, pyStrip q9, pyStrip q10, pyStrip q11, pyStrip q12, pyStrip q13, pyStrip q14, pyStrip q15, pyStrip q16, pyStrip q17, pyStrip q18, pyStrip q19, pyStrip q20])) tsegEnd
      ⟨(tseg7, pyStrip q11), List.get?_mem (show ((tmplSegs.zip (pc :: [pyStrip q1, pyStrip q2, pyStrip q3, pyStrip q4, pyStrip q5, pyStrip q6, pyStrip q7, pyStrip q8, pyStrip q9, pyStrip q10, pyStrip q11, pyStrip q12, pyStrip q13, pyStrip q14, pyStrip q15, pyStrip q16, pyStrip q17, pyStrip q18, pyStrip q19, pyStrip q20]))).get? 11 = some (tseg7, pyStrip q11) from rfl), (by decide : occursB ptoPat tseg7 = true)⟩
  have hend : occursB endingPat (glue (tmplSegs.zip (pc :: [pyStrip q1, pyStrip q2, pyStrip q3, pyStrip q4, pyStrip q5, pyStrip q6, pyStrip q7, pyStrip q8, pyStrip q9, pyStrip q10, pyStrip q11, pyStrip q12, pyStrip q13, pyStrip q14, pyStrip q15, pyStrip q16, pyStrip q17, pyStrip q18, pyStrip q19, pyStrip q20])) tsegEnd) = true :=
    occursB_glue_final endingPat (tmplSegs.zip (pc :: [pyStrip q1, pyStrip q2, pyStrip q3, pyStrip q4, pyStrip q5, pyStrip q6, pyStrip q7, pyStrip q8, pyStrip q9, pyStrip q10, pyStrip q11, pyStrip q12, pyStrip q13, pyStrip q14, pyStrip q15, pyStrip q16, pyStrip q17, pyStrip q18, pyStrip q19, pyStrip q20])) tsegEnd (by decide)
  have hnoph : occursB phPat (glue (tmplSegs.zip (pc :: [pyStrip q1, pyStrip q2, pyStrip q3, pyStrip q4, pyStrip q5, pyStrip q6, pyStrip q7, pyStrip q8, pyStrip q9, pyStrip q10, pyStrip q11, pyStrip q12, pyStrip q13, pyStrip q14, pyStrip q15, pyStrip q16, pyStrip q17, pyStrip q18, pyStrip q19, pyStrip q20])) tsegEnd) = false := by
    have hnm : lbrace ∉ glue (tmplSegs.zip (pc :: [pyStrip q1, pyStrip q2, pyStrip q3, pyStrip q4, pyStrip q5, pyStrip q6, pyStrip q7, pyStrip q8, pyStrip q9, pyStrip q10, pyStrip q11, pyStrip q12, pyStrip q13, pyStrip q14, pyStrip q15, pyStrip q16, pyStrip q17, pyStrip q18, pyStrip q19, pyStrip q20])) tsegEnd :=
      glue_no_mem (tmplSegs.zip (pc :: [pyStrip q1, pyStrip q2, pyStrip q3, pyStrip q4, pyStrip q5, pyStrip q6, pyStrip q7, pyStrip q8, pyStrip q9, pyStrip q10, pyStrip q11, pyStrip q12, pyStrip q13, pyStrip q14, pyStrip q15, pyStrip q16, pyStrip q17, pyStrip q18, pyStrip q19, pyStrip q20])) tsegEnd (fun p hp => (hprops p hp).2) (by decide)
    exact occursB_no_lbrace [] [RElem.plus1 (fun c => c != rbrace), RElem.lit [rbrace]] (glue (tmplSegs.zip (pc :: [pyStrip q1, pyStrip q2, pyStrip q3, pyStrip q4, pyStrip q5, pyStrip q6, pyStrip q7, pyStrip q8, pyStrip q9, pyStrip q10, pyStrip q11, pyStrip q12, pyStrip q13, pyStrip q14, pyStrip q15, pyStrip q16, pyStrip q17, pyStrip q18, pyStrip q19, pyStrip q20])) tsegEnd) hnm
  refine ⟨rfl, ?_⟩
  rw [hshape]
  simp only [validate_question_paper_format]
  rw [hmarks, htime, hm4, hm20, hinstr, hpto, hend, hnoph]
  rfl

/-- C4 witness: a concrete paper code and 20 concrete questions. -/
theorem create_validate_roundtrip_witness :
    create_question_paper (strC "MaKA25-2500 T97/BMG350/EE/20251012 : 1T97")
      [strC "Define the term metadata in your own words", strC "Define the term retrieval in your own words", strC "Define the term an index in your own words", strC "Define the term a corpus in your own words", strC "Define the term an embedding in your own words", strC "Define the term a template in your own words", strC "Define the term a quota in your own words", strC "Define the term a weightage in your own words", strC "Define the term a chunk in your own words", strC "Define the term a query in your own words", strC "Define the term a document in your own words", strC "Define the term a pipeline in your own words", strC "Define the term a schema in your own words", strC "Define the term a job in your own words", strC "Define the term a batch in your own words", strC "Define the term a vector in your own words", strC "Define the term a score in your own words", strC "Define the term a filter in your own words", strC "Define the term a parser in your own words", strC "Define the term a validator in your own words"]
      = some (fillTemplate (strC "MaKA25-2500 T97/BMG350/EE/20251012 : 1T97")
        [strC "Define the term metadata in your own words", strC "Define the term retrieval in your own words", strC "Define the term an index in your own words", strC "Define the term a corpus in your own words", strC "Define the term an embedding in your own words", strC "Define the term a template in your own words", strC "Define the term a quota in your own words", strC "Define the term a weightage in your own words", strC "Define the term a chunk in your own words", strC "Define the term a query in your own words", strC "Define the term a document in your own words", strC "Define the term a pipeline in your own words", strC "Define the term a schema in your own words", strC "Define the term a job in your own words", strC "Define the term a batch in your own words", strC "Define the term a vector in your own words", strC "Define the term a score in your own words", strC "Define the term a filter in your own words", strC "Define the term a parser in your own words", strC "Define the term a validator in your own words"]) ∧
    validate_question_paper_format
      (fillTemplate (strC "MaKA25-2500 T97/BMG350/EE/20251012 : 1T97")
        [strC "Define the term metadata in your own words", strC "Define the term retrieval in your own words", strC "Define the term an index in your own words", strC "Define the term a corpus in your own words", strC "Define the term an embedding in your own words", strC "Define the term a template in your own words", strC "Define the term a quota in your own words", strC "Define the term a weightage in your own words", strC "Define the term a chunk in your own words", strC "Define the term a query in your own words", strC "Define the term a document in your own words", strC "Define the term a pipeline in your own words", strC "Define the term a schema in your own words", strC "Define the term a job in your own words", strC "Define the term a batch in your own words", strC "Define the term a vector in your own words", strC "Define the term a score in your own words", strC "Define the term a filter in your own words", strC "Define the term a parser in your own words", strC "Define the term a validator in your own words"]) = (allChecksTrue, true) :=
  create_validate_roundtrip (strC "MaKA25-2500 T97/BMG350/EE/20251012 : 1T97")
    (strC "Define the term metadata in your own words")
    (strC "Define the term retrieval in your own words")
    (strC "Define the term an index in your own words")
    (strC "Define the term a corpus in your own words")
    (strC "Define the term an embedding in your own words")
    (strC "Define the term a template in your own words")
    (strC "Define the term a quota in your own words")
    (strC "Define the term a weightage in your own words")
    (strC "Define the term a chunk in your own words")
    (strC "Define the term a query in your own words")
    (strC "Define the term a document in your own words")
    (strC "Define the term a pipeline in your own words")
    (strC "Define the term a schema in your own words")
    (strC "Define the term a job in your own words")
    (strC "Define the term a batch in your own words")
    (strC "Define the term a vector in your own words")
    (strC "Define the term a score in your own words")
    (strC "Define the term a filter in your own words")
    (strC "Define the term a parser in your own words")
    (strC "Define the term a validator in your own words")
    (by decide)
    (by decide)
    (by decide)
    (by decide)
    (by decide)
    (by decide)
    (by decide)
    (by decide)
    (by decide)
    (by decide)
    (by decide)
    (by decide)
    (by decide)
    (by decide)
    (by decide)
    (by decide)
    (by decide)
    (by decide)
    (by decide)
    (by decide)
    (by decide)

/-- C6: `create_question_paper` on fewer than 20 questions does not succeed:
the padding branch (`sample_paper_template.py` line 74) evaluates
`f"Question {i+1} placeholder"` with no name `i` in scope and raises
`NameError`, modelled as `none` — the per-slot else-branch placeholders
(lines 92-93) are never reached. -/
theorem create_question_paper_short_raises :
    create_question_paper (strC "CODE") [] = none ∧
    create_question_paper (strC "CODE") [strC "Only one question"] = none :=
  ⟨rfl, rfl⟩

/-- C5: the parser always returns exactly 20 strings (padding with
synthesized `"Generated question {n}"` items), and on the scenario input of
exactly 15 numbered lines it returns those 15 extracted questions in
emission order followed by 5 synthesized placeholders. -/
theorem parse_llm_always_20_and_scenario :
    (∀ l : List Char, (parse_llm_response_to_questions l).length = 20) ∧
    parse_llm_response_to_questions c5Input = c5Expected := by
  constructor
  · intro l
    have hpad : ∀ qs : List (List Char), 20 ≤ (padQuestions qs).length := by
      intro qs
      unfold padQuestions
      rw [List.length_append, List.length_map, List.length_range]
      omega
    unfold parse_llm_response_to_questions
    rw [List.length_take]
    exact Nat.min_eq_left (hpad _)
  · decide
